import Mathlib

/-!
Verification of the devotional-scraper service (`api/scraper.py`, `api/main.py`)
against its natural-language specification.

The Python code is shallowly embedded: pure helpers become Lean functions,
HTTP fetching is modeled by an explicit site map `String → Option String`
(URL to page body; `none` is a failed fetch), Python exceptions become an
`Except PyError` result, and the bounded `for _ in range(400)` walk becomes
structural recursion on fuel.  Third-party library calls (`json.loads`,
`BeautifulSoup` tag queries, `dateutil` parsing, `re` searches for the
concrete patterns appearing in the source) are modeled by executable Lean
functions whose behavior matches the library on the input shapes this
code base feeds them.
-/

set_option maxRecDepth 20000
set_option maxHeartbeats 3000000

namespace Devotio

/-- Opening brace character (named, used pervasively by the brace scanners). -/
def lbrace : Char := Char.ofNat 123

/-- Closing brace character. -/
def rbrace : Char := Char.ofNat 125

/-- Double-quote character. -/
def dquote : Char := Char.ofNat 34

/-- Backslash character. -/
def bslash : Char := Char.ofNat 92

/-- Python exceptions that the embedded code can raise. -/
inductive PyError where
  /-- `ValueError(msg)` : raised explicitly by the scraper. -/
  | valueError (msg : String)
  /-- `AttributeError` : attribute access on a value that lacks it. -/
  | attributeError (msg : String)
  /-- `TypeError` : operation applied to a value of the wrong type. -/
  | typeError (msg : String)
  /-- `KeyError` : subscript of a dict with a missing key. -/
  | keyError (msg : String)
  /-- An `httpx` transport/status error from a fetch (uncaught ones). -/
  | fetchError
deriving DecidableEq, Repr

/-- JSON values as produced by `json.loads`.  Numbers keep their source
lexeme (no claim depends on numeric value, only on type and zero-ness). -/
inductive JValue where
  | null
  | bool (b : Bool)
  | num (lexeme : String)
  | str (s : String)
  | arr (elems : List JValue)
  | obj (fields : List (String × JValue))
deriving Repr

/-- Python `s == v` where `s` is a string and `v` a JSON-decoded value:
true exactly when `v` is the same string (no cross-type equality arises
for string-vs-JSON values). -/
def jeqStr (s : String) : JValue → Bool
  | .str t => s = t
  | _ => false

/-- Last-wins lookup in a JSON object field list (later duplicate keys
override earlier ones, as in Python's dict built by `json.loads`). -/
def jLookup (fields : List (String × JValue)) (key : String) : Option JValue :=
  fields.foldl (fun acc kv => if kv.1 = key then some kv.2 else acc) none

/-- Python truthiness of a zero lexeme: all mantissa digits are `0`. -/
def numLexemeIsZero (s : String) : Bool :=
  let mantissa := s.data.takeWhile (fun c => c ≠ 'e' ∧ c ≠ 'E')
  mantissa.all (fun c => ¬ (c = '1' ∨ c = '2' ∨ c = '3' ∨ c = '4' ∨ c = '5'
    ∨ c = '6' ∨ c = '7' ∨ c = '8' ∨ c = '9'))

/-- Python truthiness of a JSON-decoded value (`None`, `False`, numeric zero,
empty string / list / dict are falsy). -/
def pyTruthy : JValue → Bool
  | .null => false
  | .bool b => b
  | .num s => ¬ numLexemeIsZero s
  | .str s => s ≠ ""
  | .arr xs => ¬ xs.isEmpty
  | .obj fs => ¬ fs.isEmpty

/-- Does a JSON object value have the given key (`key in d` for dicts)? -/
def jHasKey (fields : List (String × JValue)) (key : String) : Bool :=
  (jLookup fields key).isSome

/-! ## A model of `json.loads`

Recursive-descent JSON parser over `List Char`, fueled so every definition
is structural (and hence kernel-reducible).  It mirrors CPython's default
`json.loads`: double-quoted strings with the standard escapes, raw control
characters in strings rejected (strict mode), numbers per the JSON grammar
plus the `NaN` / `Infinity` / `-Infinity` constants, objects with last
duplicate key winning, and trailing non-whitespace rejected.  Lone
`\uXXXX` escapes that do not denote a valid scalar value are approximated
by U+FFFD (no input in this development contains a `\u` escape). -/

/-- JSON whitespace (space, tab, line feed, carriage return). -/
def isJWs (c : Char) : Bool :=
  c = ' ' ∨ c = Char.ofNat 9 ∨ c = Char.ofNat 10 ∨ c = Char.ofNat 13

/-- Hexadecimal digit value. -/
def hexVal (c : Char) : Option Nat :=
  if '0' ≤ c ∧ c ≤ '9' then some (c.toNat - 48)
  else if 'a' ≤ c ∧ c ≤ 'f' then some (c.toNat - 87)
  else if 'A' ≤ c ∧ c ≤ 'F' then some (c.toNat - 55)
  else none

/-- Decode the character denoted by a `\uXXXX` escape. -/
def uEscChar (n : Nat) : Char :=
  if Nat.isValidChar n then Char.ofNat n else Char.ofNat 0xfffd

/-- Parse the body of a JSON string after the opening quote; `acc` holds the
already-decoded characters in reverse. -/
def jStringAux : List Char → List Char → Option (String × List Char)
  | [], _ => none
  | c :: rest, acc =>
    if c = dquote then some (String.mk acc.reverse, rest)
    else if c = bslash then
      match rest with
      | [] => none
      | e :: rest2 =>
        if e = dquote then jStringAux rest2 (dquote :: acc)
        else if e = bslash then jStringAux rest2 (bslash :: acc)
        else if e = '/' then jStringAux rest2 ('/' :: acc)
        else if e = 'b' then jStringAux rest2 (Char.ofNat 8 :: acc)
        else if e = 'f' then jStringAux rest2 (Char.ofNat 12 :: acc)
        else if e = 'n' then jStringAux rest2 (Char.ofNat 10 :: acc)
        else if e = 'r' then jStringAux rest2 (Char.ofNat 13 :: acc)
        else if e = 't' then jStringAux rest2 (Char.ofNat 9 :: acc)
        else if e = 'u' then
          match rest2 with
          | h1 :: h2 :: h3 :: h4 :: rest6 =>
            match hexVal h1, hexVal h2, hexVal h3, hexVal h4 with
            | some a, some b, some c2, some d =>
              jStringAux rest6 (uEscChar (((a * 16 + b) * 16 + c2) * 16 + d) :: acc)
            | _, _, _, _ => none
          | _ => none
        else none
    else if c.toNat < 32 then none
    else jStringAux rest (c :: acc)

/-- Match a literal character sequence, returning the remainder. -/
def stripLit : List Char → List Char → Option (List Char)
  | [], cs => some cs
  | _ :: _, [] => none
  | l :: ls, c :: cs => if c = l then stripLit ls cs else none

/-- Parse the digit run at the head of the input. -/
def spanDigits (cs : List Char) : List Char × List Char :=
  (cs.takeWhile Char.isDigit, cs.dropWhile Char.isDigit)

/-- Parse a JSON number starting at the given input (sign already included),
returning its lexeme.  Follows the JSON grammar: `-?(0|[1-9][0-9]*)`
followed by optional fraction and exponent. -/
def jNum (cs : List Char) : Option (String × List Char) :=
  let (sign, cs1) := match cs with
    | c :: rest => if c = '-' then ([c], rest) else ([], cs)
    | [] => ([], [])
  match cs1 with
  | [] => none
  | d :: _ =>
    if ¬ d.isDigit then none
    else
      let (intPart, cs2) := spanDigits cs1
      if d = '0' ∧ intPart.length ≠ 1 then none
      else
        let (fracPart, cs3) :=
          match cs2 with
          | '.' :: cs2a =>
            let (fd, cs2b) := spanDigits cs2a
            if fd.isEmpty then ([], cs2) else ('.' :: fd, cs2b)
          | _ => ([], cs2)
        if (match cs2 with | '.' :: _ => fracPart.isEmpty | _ => false) then none
        else
          let (expPart, cs4) :=
            match cs3 with
            | e :: cs3a =>
              if e = 'e' ∨ e = 'E' then
                let (sgn, cs3b) := match cs3a with
                  | s :: cs3a2 => if s = '+' ∨ s = '-' then ([s], cs3a2) else ([], cs3a)
                  | [] => ([], [])
                let (ed, cs3c) := spanDigits cs3b
                if ed.isEmpty then ([], cs3) else (e :: (sgn ++ ed), cs3c)
              else ([], cs3)
            | [] => ([], cs3)
          let bad : Bool := match cs3 with
            | e :: _ => (e = 'e' ∨ e = 'E') ∧ expPart.isEmpty
            | [] => false
          if bad then none
          else some (String.mk (sign ++ intPart ++ fracPart ++ expPart), cs4)

/-- Member loop for JSON objects: positioned after the opening brace or a
separating comma, with `pv` parsing element values. -/
def jObjLoop (pv : List Char → Option (JValue × List Char)) :
    Nat → List Char → List (String × JValue) → Option (JValue × List Char)
  | 0, _, _ => none
  | fuel + 1, cs, acc =>
    match cs.dropWhile isJWs with
    | [] => none
    | c :: rest =>
      if c = rbrace then
        if acc.isEmpty then some (.obj [], rest) else none
      else if c = dquote then
        match jStringAux rest [] with
        | none => none
        | some (key, cs2) =>
          match cs2.dropWhile isJWs with
          | ':' :: cs3 =>
            match pv cs3 with
            | none => none
            | some (v, cs4) =>
              match cs4.dropWhile isJWs with
              | c5 :: cs5 =>
                if c5 = ',' then jObjLoop pv fuel cs5 (acc ++ [(key, v)])
                else if c5 = rbrace then some (.obj (acc ++ [(key, v)]), cs5)
                else none
              | [] => none
          | _ => none
      else none

/-- Element loop for JSON arrays. -/
def jArrLoop (pv : List Char → Option (JValue × List Char)) :
    Nat → List Char → List JValue → Option (JValue × List Char)
  | 0, _, _ => none
  | fuel + 1, cs, acc =>
    match cs.dropWhile isJWs with
    | [] => none
    | c :: rest =>
      if c = ']' ∧ acc.isEmpty then some (.arr [], rest)
      else
        match pv cs with
        | none => none
        | some (v, cs2) =>
          match cs2.dropWhile isJWs with
          | c3 :: cs3 =>
            if c3 = ',' then jArrLoop pv fuel cs3 (acc ++ [v])
            else if c3 = ']' then some (.arr (acc ++ [v]), cs3)
            else none
          | [] => none

/-- Parse one JSON value; the fuel bounds nesting depth. -/
def jVal : Nat → List Char → Option (JValue × List Char)
  | 0, _ => none
  | fuel + 1, cs =>
    match cs.dropWhile isJWs with
    | [] => none
    | c :: rest =>
      if c = lbrace then jObjLoop (jVal fuel) (rest.length + 1) rest []
      else if c = '[' then jArrLoop (jVal fuel) (rest.length + 1) rest []
      else if c = dquote then
        match jStringAux rest [] with
        | some (s, cs2) => some (.str s, cs2)
        | none => none
      else if c = 't' then
        (stripLit [ 'r', 'u', 'e'] rest).map (fun cs2 => (.bool true, cs2))
      else if c = 'f' then
        (stripLit [ 'a', 'l', 's', 'e'] rest).map (fun cs2 => (.bool false, cs2))
      else if c = 'n' then
        (stripLit [ 'u', 'l', 'l'] rest).map (fun cs2 => (.null, cs2))
      else if c = 'N' then
        (stripLit [ 'a', 'N'] rest).map (fun cs2 => (.num "NaN", cs2))
      else if c = 'I' then
        (stripLit [ 'n', 'f', 'i', 'n', 'i', 't', 'y'] rest).map
          (fun cs2 => (.num "Infinity", cs2))
      else if c = '-' then
        match rest with
        | 'I' :: rest2 =>
          (stripLit [ 'n', 'f', 'i', 'n', 'i', 't', 'y'] rest2).map
            (fun cs2 => (.num "-Infinity", cs2))
        | _ =>
          match jNum (c :: rest) with
          | some (lex, cs2) => some (.num lex, cs2)
          | none => none
      else
        match jNum (c :: rest) with
        | some (lex, cs2) => some (.num lex, cs2)
        | none => none

/-- Model of `json.loads` on a character list: parse one value and require
only whitespace to remain. -/
def jsonLoadsL (cs : List Char) : Option JValue :=
  match jVal (cs.length + 1) cs with
  | some (v, rest) => if (rest.dropWhile isJWs).isEmpty then some v else none
  | none => none

/-- Model of `json.loads`. -/
def json_loads (s : String) : Option JValue :=
  jsonLoadsL s.data

/-! ## String helpers mirroring Python `str` operations -/

/-- First index at which `needle` occurs in the input (Python `str.find`,
restricted to found/not-found via `Option`). -/
def findSubAux (needle : List Char) : List Char → Nat → Option Nat
  | [], i => if needle.isEmpty then some i else none
  | c :: rest, i =>
    if needle.isPrefixOf (c :: rest) then some i
    else findSubAux needle rest (i + 1)

/-- Python `needle in hay` for strings (substring containment). -/
def containsSub (hay needle : List Char) : Bool :=
  (findSubAux needle hay 0).isSome

/-- Python `needle in hay` on `String`s. -/
def strContains (hay needle : String) : Bool :=
  containsSub hay.data needle.data

/-- Digit value of an ASCII digit character. -/
def digitVal (c : Char) : Nat := c.toNat - 48

/-- Python `s.startswith(t)` (also `String.startsWith`, reimplemented over
the character list so it reduces in the kernel). -/
def startsWithL (s t : String) : Bool := t.data.isPrefixOf s.data

/-- Auxiliary for `splitChar`. -/
def splitCharAux (sep : Char) : List Char → List Char → List String
  | [], acc => [String.mk acc.reverse]
  | c :: rest, acc =>
    if c = sep then String.mk acc.reverse :: splitCharAux sep rest []
    else splitCharAux sep rest (c :: acc)

/-- Python `s.split(sep)` for a one-character separator (the only use in
the source is `verse_text.split(";")`). -/
def splitChar (sep : Char) (s : String) : List String :=
  splitCharAux sep s.data []

/-- Zero-padded two-digit rendering (`strftime` `%m` / `%d`). -/
def pad2 (n : Nat) : String :=
  if n < 10 then "0" ++ toString n else toString n

/-- Zero-padded four-digit rendering (`strftime` `%Y`). -/
def pad4 (n : Nat) : String :=
  if n < 10 then "000" ++ toString n
  else if n < 100 then "00" ++ toString n
  else if n < 1000 then "0" ++ toString n
  else toString n

/-! ## Dates

`datetime.strptime(date, "%Y-%m-%d")` is modeled after CPython's
`_strptime`: `%Y` is exactly four digits, `%m` matches the regex
`1[0-2]|0[1-9]|[1-9]` and `%d` matches `3[01]|[12]\d|0[1-9]|[1-9]`, with
the regex engine's ordered-alternation backtracking; the whole string must
be consumed, and the subsequent `datetime` construction requires year ≥ 1
and a day that exists in the month. -/

/-- A calendar date value (what `datetime.date` compares by). -/
structure DateV where
  y : Nat
  m : Nat
  d : Nat
deriving DecidableEq, Repr

/-- Gregorian leap year. -/
def isLeap (y : Nat) : Bool := y % 4 = 0 ∧ (y % 100 ≠ 0 ∨ y % 400 = 0)

/-- Number of days in a month. -/
def daysInMonth (y m : Nat) : Nat :=
  if m = 2 then (if isLeap y then 29 else 28)
  else if m = 4 ∨ m = 6 ∨ m = 9 ∨ m = 11 then 30
  else 31

/-- Comparison of `date()` values as used by the chain walk. -/
def dateLtB (a b : DateV) : Bool :=
  a.y < b.y ∨ (a.y = b.y ∧ (a.m < b.m ∨ (a.m = b.m ∧ a.d < b.d)))

/-- Candidate parses of `%m` (value and remaining input), in the order the
regex `1[0-2]|0[1-9]|[1-9]` tries its alternatives. -/
def monthCands : List Char → List (Nat × List Char)
  | c1 :: c2 :: rest =>
    (if c1 = '1' ∧ (c2 = '0' ∨ c2 = '1' ∨ c2 = '2')
      then [(10 + digitVal c2, rest)] else []) ++
    (if c1 = '0' ∧ c2.isDigit ∧ c2 ≠ '0' then [(digitVal c2, rest)] else []) ++
    (if c1.isDigit ∧ c1 ≠ '0' then [(digitVal c1, c2 :: rest)] else [])
  | [c1] => if c1.isDigit ∧ c1 ≠ '0' then [(digitVal c1, [])] else []
  | [] => []

/-- Candidate parses of `%d`, in the order of `3[01]|[12]\d|0[1-9]|[1-9]`. -/
def dayCands : List Char → List (Nat × List Char)
  | c1 :: c2 :: rest =>
    (if c1 = '3' ∧ (c2 = '0' ∨ c2 = '1') then [(30 + digitVal c2, rest)] else []) ++
    (if (c1 = '1' ∨ c1 = '2') ∧ c2.isDigit
      then [(digitVal c1 * 10 + digitVal c2, rest)] else []) ++
    (if c1 = '0' ∧ c2.isDigit ∧ c2 ≠ '0' then [(digitVal c2, rest)] else []) ++
    (if c1.isDigit ∧ c1 ≠ '0' then [(digitVal c1, c2 :: rest)] else [])
  | [c1] => if c1.isDigit ∧ c1 ≠ '0' then [(digitVal c1, [])] else []
  | [] => []

/-- Model of `datetime.strptime(s, "%Y-%m-%d")`, returning the date value
or `none` where Python raises `ValueError`. -/
def strptime_Ymd (s : String) : Option DateV :=
  match s.data with
  | a :: b :: c :: d :: '-' :: rest =>
    if a.isDigit ∧ b.isDigit ∧ c.isDigit ∧ d.isDigit then
      let y := ((digitVal a * 10 + digitVal b) * 10 + digitVal c) * 10 + digitVal d
      let fits := (monthCands rest).filterMap (fun mc =>
        match mc.2 with
        | '-' :: rest2 =>
          ((dayCands rest2).filterMap (fun dc =>
            if dc.2.isEmpty then some (mc.1, dc.1) else none)).head?
        | _ => none)
      match fits.head? with
      | some (m, dd) =>
        if 1 ≤ y ∧ dd ≤ daysInMonth y m then some ⟨y, m, dd⟩ else none
      | none => none
    else none
  | _ => none

/-- Render a date value as `YYYY-MM-DD` (`dt.strftime("%Y-%m-%d")`). -/
def dateToStr (v : DateV) : String :=
  pad4 v.y ++ "-" ++ pad2 v.m ++ "-" ++ pad2 v.d

/-! ## Model of `parse_date` (`dateutil.parser.parse` + `strftime`)

`dateutil.parser.parse` accepts a very large grammar; this code base only
feeds it (a) ISO timestamps from the page model (`devotionalDate` /
`otherDate` values such as `2024-01-18T00:00:00`), (b) long-form dates
matched by the fallback regex (`January 18, 2024`), and (c) short-form
dates matched by the list regex (`18 Jan 2024`, case-insensitive month).
The model parses exactly those shapes and conservatively maps every other
string to `None` (the Python helper catches all parser errors and returns
`None`). -/

/-- Two ASCII digits starting the input, with the remainder. -/
def twoDigits : List Char → Option (Nat × List Char)
  | c1 :: c2 :: rest =>
    if c1.isDigit ∧ c2.isDigit then some (digitVal c1 * 10 + digitVal c2, rest)
    else none
  | _ => none

/-- Is the input a valid `HH:MM:SS` time, optionally with a fractional part? -/
def validTimePart (cs : List Char) : Bool :=
  match cs with
  | h1 :: h2 :: ':' :: m1 :: m2 :: ':' :: s1 :: s2 :: rest =>
    let fracOk : Bool := match rest with
      | [] => true
      | '.' :: ds => ¬ ds.isEmpty ∧ ds.all Char.isDigit
      | _ => false
    h1.isDigit ∧ h2.isDigit ∧ m1.isDigit ∧ m2.isDigit ∧ s1.isDigit ∧ s2.isDigit ∧
    digitVal h1 * 10 + digitVal h2 < 24 ∧
    digitVal m1 * 10 + digitVal m2 < 60 ∧
    digitVal s1 * 10 + digitVal s2 < 60 ∧ fracOk
  | _ => false

/-- Long month names with their numbers. -/
def monthNamesLong : List (String × Nat) :=
  [("January", 1), ("February", 2), ("March", 3), ("April", 4), ("May", 5),
   ("June", 6), ("July", 7), ("August", 8), ("September", 9), ("October", 10),
   ("November", 11), ("December", 12)]

/-- Three-letter month abbreviations (lowercase) with their numbers. -/
def monthNamesShort : List (String × Nat) :=
  [("jan", 1), ("feb", 2), ("mar", 3), ("apr", 4), ("may", 5), ("jun", 6),
   ("jul", 7), ("aug", 8), ("sep", 9), ("oct", 10), ("nov", 11), ("dec", 12)]

/-- One or two ASCII digits starting the input. -/
def oneTwoDigits : List Char → Option (Nat × List Char)
  | c1 :: c2 :: rest =>
    if c1.isDigit then
      if c2.isDigit then some (digitVal c1 * 10 + digitVal c2, rest)
      else some (digitVal c1, c2 :: rest)
    else none
  | [c1] => if c1.isDigit then some (digitVal c1, []) else none
  | [] => none

/-- Exactly four ASCII digits starting the input. -/
def fourDigits : List Char → Option (Nat × List Char)
  | a :: b :: c :: d :: rest =>
    if a.isDigit ∧ b.isDigit ∧ c.isDigit ∧ d.isDigit then
      some (((digitVal a * 10 + digitVal b) * 10 + digitVal c) * 10 + digitVal d,
        rest)
    else none
  | _ => none

/-- Drop at least one whitespace character. -/
def dropWs1 (cs : List Char) : Option (List Char) :=
  match cs with
  | c :: rest => if c.isWhitespace then some (rest.dropWhile Char.isWhitespace) else none
  | [] => none

/-- A fully validated date value, or `none`. -/
def checkDate (y m d : Nat) : Option DateV :=
  if 1 ≤ y ∧ 1 ≤ m ∧ m ≤ 12 ∧ 1 ≤ d ∧ d ≤ daysInMonth y m then some ⟨y, m, d⟩
  else none

/-- ISO shape: `YYYY-MM-DD`, optionally followed by `T` or a blank and a
valid time-of-day. -/
def parseIsoDate (cs : List Char) : Option DateV :=
  match fourDigits cs with
  | some (y, '-' :: rest1) =>
    match twoDigits rest1 with
    | some (m, '-' :: rest2) =>
      match twoDigits rest2 with
      | some (d, rest3) =>
        match rest3 with
        | [] => checkDate y m d
        | sep :: time =>
          if (sep = 'T' ∨ sep = ' ') ∧ validTimePart time then checkDate y m d
          else none
      | none => none
    | _ => none
  | _ => none

/-- Long-form shape: `Month D, YYYY` (as matched by the fallback regex). -/
def parseLongDate (cs : List Char) : Option DateV :=
  (monthNamesLong.filterMap (fun nm =>
    match stripLit nm.1.data cs with
    | some rest1 =>
      match dropWs1 rest1 with
      | some rest2 =>
        match oneTwoDigits rest2 with
        | some (d, ',' :: rest3) =>
          match dropWs1 rest3 with
          | some rest4 =>
            match fourDigits rest4 with
            | some (y, []) => checkDate y nm.2 d
            | _ => none
          | none => none
        | _ => none
      | none => none
    | none => none)).head?

/-- Short-form shape: `D Mon YYYY`, month case-insensitive (as matched by
the list regex). -/
def parseShortDate (cs : List Char) : Option DateV :=
  match oneTwoDigits cs with
  | some (d, rest1) =>
    match dropWs1 rest1 with
    | some rest2 =>
      (monthNamesShort.filterMap (fun nm =>
        match stripLit nm.1.data (rest2.map Char.toLower) with
        | some rest3 =>
          match dropWs1 rest3 with
          | some rest4 =>
            match fourDigits rest4 with
            | some (y, []) => checkDate y nm.2 d
            | _ => none
          | none => none
        | none => none)).head?
    | none => none
  | none => none

/-- Model of `parse_date`: `dateutil` parse normalized via
`strftime("%Y-%m-%d")`, `None` on failure. -/
def parse_date (s : String) : Option String :=
  match parseIsoDate s.data with
  | some v => some (dateToStr v)
  | none =>
    match parseLongDate s.data with
    | some v => some (dateToStr v)
    | none =>
      match parseShortDate s.data with
      | some v => some (dateToStr v)
      | none => none

/-- Model of `parse_date` applied to an arbitrary decoded JSON value: `dateutil`
raises `TypeError` on non-strings, which the bare `except` turns into
`None`. -/
def parse_date_j : JValue → Option String
  | .str s => parse_date s
  | _ => none

/-! ## Python dynamic operations on decoded JSON values

The scraper manipulates `json.loads` output with duck-typed operations;
these helpers give each operation its CPython semantics, including the
exceptions raised on unexpected shapes. -/

/-- Python `key in v` for a string key: dict key membership, substring test
on strings, element equality on lists, `TypeError` otherwise. -/
def pyInStr (key : String) : JValue → Except PyError Bool
  | .obj fs => .ok (jHasKey fs key)
  | .str s => .ok (strContains s key)
  | .arr xs => .ok (xs.any (jeqStr key))
  | _ => .error (.typeError "argument is not iterable")

/-- Python `v[key]` for a string key: dict subscript (`KeyError` when the
key is missing), `TypeError` on any other shape. -/
def pySubscript (v : JValue) (key : String) : Except PyError JValue :=
  match v with
  | .obj fs =>
    match jLookup fs key with
    | some x => .ok x
    | none => .error (.keyError key)
  | .str _ => .error (.typeError "string indices must be integers")
  | .arr _ => .error (.typeError "list indices must be integers")
  | _ => .error (.typeError "object is not subscriptable")

/-- Python `v.get(key, dflt)`: defined on dicts only; `AttributeError` on
every other shape. -/
def pyGet (v : JValue) (key : String) (dflt : JValue) : Except PyError JValue :=
  match v with
  | .obj fs => .ok ((jLookup fs key).getD dflt)
  | _ => .error (.attributeError "object has no attribute get")

/-- Base URL constant from the scraper module. -/
def BASE_URL : String := "https://www.odbm.org"

/-- Devotionals index URL constant. -/
def DEVOTIONALS_URL : String := BASE_URL ++ "/en/devotionals/"

/-! ## The embedded-model brace scanners

Both extractors look for `window._model = ` followed by an open brace and
scan forward counting raw braces (braces inside JSON strings count too),
over at most 500000 characters.  `_parse_devotional_nav` stops at the
first return of the counter to zero; `scrape_devotional_page` attempts a
`json.loads` at every such point and keeps scanning on parse failure. -/

/-- Marker searched for in the page (`window._model = ` + open brace). -/
def modelMarker : List Char := ("window._model = " ++ lbrace.toString).data

/-- First position (relative, exclusive end) at which the running brace
count returns to zero, as in `_parse_devotional_nav`. -/
def scanFirstBalance : Nat → List Char → Int → Nat → Option Nat
  | 0, _, _, _ => none
  | _, [], _, _ => none
  | fuel + 1, c :: rest, count, pos =>
    if c = lbrace then scanFirstBalance fuel rest (count + 1) (pos + 1)
    else if c = rbrace then
      let count2 := count - 1
      if count2 = 0 then some (pos + 1)
      else scanFirstBalance fuel rest count2 (pos + 1)
    else scanFirstBalance fuel rest count (pos + 1)

/-- The `scrape_devotional_page` scan: at every zero crossing, try to
`json.loads` the prefix scanned so far (`taken`, reversed); stop on the
first success. -/
def scanRetry : Nat → List Char → Int → List Char → Option JValue
  | 0, _, _, _ => none
  | _, [], _, _ => none
  | fuel + 1, c :: rest, count, taken =>
    let taken2 := c :: taken
    if c = lbrace then scanRetry fuel rest (count + 1) taken2
    else if c = rbrace then
      let count2 := count - 1
      if count2 = 0 then
        match jsonLoadsL taken2.reverse with
        | some v => some v
        | none => scanRetry fuel rest count2 taken2
      else scanRetry fuel rest count2 taken2
    else scanRetry fuel rest count taken2

/-- The `page_data` computed by `scrape_devotional_page` from the raw HTML
(`None` when the marker is absent or no scanned prefix parses). -/
def embeddedModel (html : String) : Option JValue :=
  match findSubAux modelMarker html.data 0 with
  | none => none
  | some idx =>
    let suffix := html.data.drop (idx + 16)
    scanRetry (min 500000 suffix.length) suffix 0 []

/-- The balanced JSON slice used by `_parse_devotional_nav` (text between
`start_pos` and the first zero crossing; empty when the scan never
balances). -/
def navSlice (html : String) : Option (List Char) :=
  match findSubAux modelMarker html.data 0 with
  | none => none
  | some idx =>
    let suffix := html.data.drop (idx + 16)
    match scanFirstBalance (min 500000 suffix.length) suffix 0 0 with
    | some e => some (suffix.take e)
    | none => some []

/-! ## `_parse_devotional_nav` -/

/-- The `otherDate` block of `_parse_devotional_nav` (lines guarded by
`"otherDate" in pm`). -/
def navOtherDate (pm : JValue) : Except PyError (Option String) := do
  let hasOther ← pyInStr "otherDate" pm
  if hasOther then do
    let raw ← pySubscript pm "otherDate"
    match raw with
    | .str s =>
      if strContains s "T" then
        pure (some (String.mk (s.data.takeWhile (fun c => c ≠ 'T'))))
      else
        pure (some ((parse_date s).getD (String.mk (s.data.take 10))))
    | _ => pure none
  else pure none

/-- The `devotionalDate` fallback block (`if not date_str and
"devotionalDate" in pm`). -/
def navDate2 (pm : JValue) (dateStr1 : Option String) :
    Except PyError (Option String) :=
  let truthy1 : Bool := match dateStr1 with
    | some s => s ≠ ""
    | none => false
  if truthy1 then pure dateStr1
  else do
    let hasDev ← pyInStr "devotionalDate" pm
    if hasDev then do
      let v ← pySubscript pm "devotionalDate"
      pure (some ((parse_date_j v).getD ""))
    else pure dateStr1

/-- A navigation link: `pm.get(key) or ""`, `BASE_URL`-prefixed when it
starts with a slash (raising `AttributeError` on a truthy non-string). -/
def navLink (pm : JValue) (key : String) : Except PyError (Option String) := do
  let raw ← pyGet pm key .null
  let path : JValue := if pyTruthy raw then raw else .str ""
  if pyTruthy path then
    match path with
    | .str s => pure (some (if startsWithL s "/" then BASE_URL ++ s else s))
    | _ => .error (.attributeError "object has no attribute startswith")
  else pure none

/-- Dynamic part of `_parse_devotional_nav` operating on the decoded
`pageModel` (the Python after `pm = data.get("pageModel") or {}`). -/
def navFromPm (pm : JValue) :
    Except PyError (Option String × Option String × Option String) := do
  let dateStr1 ← navOtherDate pm
  let dateStr2 ← navDate2 pm dateStr1
  let prevUrl ← navLink pm "previousDevotionalUrl"
  let nextUrl ← navLink pm "nextDevotionalUrl"
  return (dateStr2, prevUrl, nextUrl)

/-- Step `pm = data.get("pageModel") or \x7b\x7d` (the decoded top level is always an
object because the parsed slice starts at an open brace). -/
def navPmOf (data : JValue) : JValue :=
  let pmRaw : Option JValue := match data with
    | .obj fs => jLookup fs "pageModel"
    | _ => none
  match pmRaw with
  | some v => if pyTruthy v then v else .obj []
  | none => .obj []

/-- Model of `_parse_devotional_nav`: extract `(date, previous_url,
next_url)` from a devotional page's HTML. -/
def parse_devotional_nav (html : String) :
    Except PyError (Option String × Option String × Option String) :=
  match navSlice html with
  | none => .ok (none, none, none)
  | some slice =>
    match jsonLoadsL slice with
    | none => .ok (none, none, none)
    | some data => navFromPm (navPmOf data)

/-! ## A model of the BeautifulSoup queries used by the scraper

The scraper only ever asks for: all `<p>` / `<strong>` / `<em>` elements
of a small HTML fragment and their `get_text(strip=True)`, the first
`<h1>` / `<main>` / `<button>` element of a page, and anchors with an
`href` attribute.  These are modeled by direct tag scanning, adequate for
the plain markup those fragments consist of. -/

/-- Python `str.strip()` (whitespace at both ends). -/
def pyStrip (s : String) : String :=
  String.mk (((s.data.dropWhile Char.isWhitespace).reverse.dropWhile
    Char.isWhitespace).reverse)

/-- Text runs of a fragment: maximal character runs outside `<...>` tags. -/
def textRunsAux : List Char → Bool → List Char → List String
  | [], _, run => [String.mk run.reverse]
  | c :: rest, true, run => textRunsAux rest (c ≠ '>') run
  | c :: rest, false, run =>
    if c = '<' then String.mk run.reverse :: textRunsAux rest true []
    else textRunsAux rest false (c :: run)

/-- Model of `element.get_text(strip=True)`: each descendant string stripped, empty
ones dropped, concatenated. -/
def getTextStrip (cs : List Char) : String :=
  String.join (((textRunsAux cs false []).map pyStrip).filter (fun s => s ≠ ""))

/-- Case-insensitive ASCII lowering of a tag name character. -/
def lowChar (c : Char) : Char := c.toLower

/-- Does the input start an opening tag `<name` (followed by `>`, blank, or
`/`)?  Returns the remainder after the tag header's `>` when it does. -/
def openTagAt (name : List Char) (cs : List Char) : Option (List Char) :=
  match cs with
  | '<' :: rest =>
    match stripLit name (rest.map lowChar) with
    | some _ =>
      let after := rest.drop name.length
      match after with
      | [] => none
      | c :: _ =>
        if c = '>' ∨ c = ' ' ∨ c = Char.ofNat 10 ∨ c = Char.ofNat 9 then
          some ((after.dropWhile (fun d => d ≠ '>')).drop 1)
        else none
    | none => none
  | _ => none

/-- Everything up to the matching close tag `</name>` (to end of input when
the close tag is missing, as lxml auto-closes), plus the remainder. -/
def untilCloseTag (name : List Char) : Nat → List Char → (List Char × List Char)
  | 0, cs => (cs, [])
  | _, [] => ([], [])
  | fuel + 1, c :: rest =>
    match stripLit ('<' :: '/' :: name ++ [ '>']) ((c :: rest).map lowChar) with
    | some _ => ([], (c :: rest).drop (name.length + 3))
    | none =>
      let (inner, rem) := untilCloseTag name fuel rest
      (c :: inner, rem)

/-- Inner contents of every `<name>...</name>` element, in document order
(non-overlapping, left to right). -/
def tagBlocks (name : List Char) : Nat → List Char → List (List Char)
  | 0, _ => []
  | _, [] => []
  | fuel + 1, c :: rest =>
    match openTagAt name (c :: rest) with
    | some inside =>
      let (inner, rem) := untilCloseTag name inside.length inside
      inner :: tagBlocks name fuel rem
    | none => tagBlocks name fuel rest

/-- Model of `soup.find_all(name)` followed by `get_text(strip=True)` on each hit. -/
def tagTexts (name : String) (fragment : String) : List String :=
  (tagBlocks name.data fragment.data.length fragment.data).map getTextStrip

/-- Model of `soup.find(name)` followed by `get_text(strip=True)`. -/
def firstTagText (name : String) (fragment : String) : Option String :=
  (tagBlocks name.data fragment.data.length fragment.data).head?.map getTextStrip

/-- Inner content of the first `<name>` element, as a string. -/
def firstTagInner (name : String) (fragment : String) : Option String :=
  ((tagBlocks name.data fragment.data.length fragment.data).head?).map
    (fun cs => String.mk cs)

/-! ## Models of the `re` patterns appearing in the source -/

/-- Regex word character (`\w` with ASCII text: alphanumeric or underscore;
the scraped ASCII pages never hit the Unicode cases). -/
def isWordChar (c : Char) : Bool := c.isAlphanum ∨ c = '_'

/-- Match `\s+` at the head, returning (consumed, rest). -/
def spanWs (cs : List Char) : List Char × List Char :=
  (cs.takeWhile Char.isWhitespace, cs.dropWhile Char.isWhitespace)

/-- Attempt `(January|…)\s+\d{1,2},\s+\d{4}\b` at the head of `suffix`
(the leading `\b` is checked by the caller); returns the matched length. -/
def monthDateAt (suffix : List Char) : Option Nat :=
  (monthNamesLong.filterMap (fun nm =>
    match stripLit nm.1.data suffix with
    | none => none
    | some rest1 =>
      let (ws1, rest2) := spanWs rest1
      if ws1.isEmpty then none
      else
        let dayLen : Option Nat := match rest2 with
          | a :: b :: ',' :: _ =>
            if a.isDigit ∧ b.isDigit then some 2
            else if a.isDigit ∧ b = ',' then some 1 else none
          | a :: ',' :: _ => if a.isDigit then some 1 else none
          | _ => none
        match dayLen with
        | none => none
        | some dl =>
          let rest3 := rest2.drop (dl + 1)
          let (ws2, rest4) := spanWs rest3
          if ws2.isEmpty then none
          else
            match rest4 with
            | y1 :: y2 :: y3 :: y4 :: after =>
              let boundOk : Bool := match after with
                | [] => true
                | c :: _ => ¬ isWordChar c
              if y1.isDigit ∧ y2.isDigit ∧ y3.isDigit ∧ y4.isDigit ∧ boundOk then
                some (nm.1.length + ws1.length + dl + 1 + ws2.length + 4)
              else none
            | _ => none)).head?

/-- Model of `re.search` for the fallback date pattern
`\b(January|…)\s+\d{1,2},\s+\d{4}\b`; returns `match.group()`. -/
def searchMonthDate : Nat → Bool → List Char → Option String
  | 0, _, _ => none
  | _, _, [] => none
  | fuel + 1, prevWord, c :: rest =>
    (if ¬ prevWord then
      match monthDateAt (c :: rest) with
      | some len => some (String.mk ((c :: rest).take len))
      | none => none
     else none).orElse (fun _ =>
      searchMonthDate fuel (isWordChar c) rest)

/-- Attempt the verse pattern `["\']([^"\']+)["\']\s+[A-Z][a-z]+\s+\d+:\d+`
at the head; returns the matched length. -/
def versePatternAt (cs : List Char) : Option Nat :=
  match cs with
  | q1 :: rest =>
    if q1 = dquote ∨ q1 = Char.ofNat 39 then
      let inner := rest.takeWhile (fun c => ¬ (c = dquote ∨ c = Char.ofNat 39))
      if inner.isEmpty then none
      else
        match rest.drop inner.length with
        | q2 :: rest2 =>
          if q2 = dquote ∨ q2 = Char.ofNat 39 then
            let (ws1, rest3) := spanWs rest2
            if ws1.isEmpty then none
            else
              match rest3 with
              | u :: rest4 =>
                if u.isUpper then
                  let lows := rest4.takeWhile (fun c => c.isLower)
                  if lows.isEmpty then none
                  else
                    let (ws2, rest5) := spanWs (rest4.drop lows.length)
                    if ws2.isEmpty then none
                    else
                      let ds1 := rest5.takeWhile Char.isDigit
                      if ds1.isEmpty then none
                      else
                        match rest5.drop ds1.length with
                        | ':' :: rest6 =>
                          let ds2 := rest6.takeWhile Char.isDigit
                          if ds2.isEmpty then none
                          else some (2 + inner.length + ws1.length + 1 +
                            lows.length + ws2.length + ds1.length + 1 + ds2.length)
                        | _ => none
                else none
              | [] => none
          else none
        | [] => none
    else none
  | [] => none

/-- Model of `re.search` for the verse pattern; returns `match.group(0)`. -/
def searchVersePattern : Nat → List Char → Option String
  | 0, _ => none
  | _, [] => none
  | fuel + 1, c :: rest =>
    match versePatternAt (c :: rest) with
    | some len => some (String.mk ((c :: rest).take len))
    | none => searchVersePattern fuel rest

/-- Model of `re.search(r"\d+:\d+", s)`: is there a digit-colon-digit occurrence? -/
def hasChapterVerse (cs : List Char) : Bool :=
  match cs with
  | a :: ':' :: b :: rest =>
    (a.isDigit ∧ b.isDigit) ∨ hasChapterVerse (':' :: b :: rest)
  | _ :: rest => hasChapterVerse rest
  | [] => false

/-- The devotional-path pattern
`/devotionals/devotional-category/[^"')\s<>]+` as a literal head plus its
continuation character class. -/
def devPathHead : List Char := "/devotionals/devotional-category/".data

/-- Characters allowed to extend a devotional-path match. -/
def devPathChar (c : Char) : Bool :=
  ¬ (c = dquote ∨ c = Char.ofNat 39 ∨ c = ')' ∨ c.isWhitespace ∨ c = '<' ∨ c = '>')

/-- Model of `re.findall` for the devotional-path pattern: all non-overlapping
matches, left to right. -/
def findallDevPaths : Nat → List Char → List String
  | 0, _ => []
  | _, [] => []
  | fuel + 1, c :: rest =>
    match stripLit devPathHead (c :: rest) with
    | some after =>
      let ext := after.takeWhile devPathChar
      if ext.isEmpty then findallDevPaths fuel rest
      else
        String.mk (devPathHead ++ ext) ::
          findallDevPaths fuel (after.drop ext.length)
    | none => findallDevPaths fuel rest

/-- First-seen-order de-duplication (the `seen`-set idiom used twice in the
scraper). -/
def dedupFirstSeen : List String → List String
  | [] => []
  | x :: xs =>
    x :: (dedupFirstSeen xs).filter (fun y => y ≠ x)

/-- ASCII lowering of a whole string (Python `str.lower` on the ASCII text
this code handles). -/
def lowerStr (s : String) : String := String.mk (s.data.map Char.toLower)

/-- The `href` attribute value inside a tag header, or `""`. -/
def parseHref (header : List Char) : String :=
  match findSubAux "href=".data header 0 with
  | none => ""
  | some i =>
    match header.drop (i + 5) with
    | q :: rest =>
      if q = dquote ∨ q = Char.ofNat 39 then
        String.mk (rest.takeWhile (fun c => c ≠ q))
      else ""
    | [] => ""

/-- All anchor elements: `(href value, get_text(strip=True))`. -/
def findAnchors : Nat → List Char → List (String × String)
  | 0, _ => []
  | _, [] => []
  | fuel + 1, c :: rest =>
    match c :: rest with
    | '<' :: r2 =>
      match r2.map lowChar with
      | 'a' :: b :: _ =>
        if b = '>' ∨ b = ' ' ∨ b = Char.ofNat 10 ∨ b = Char.ofNat 9 then
          let header := r2.takeWhile (fun d => d ≠ '>')
          let inside := (r2.dropWhile (fun d => d ≠ '>')).drop 1
          let (inner, rem) := untilCloseTag [ 'a'] inside.length inside
          (parseHref header, getTextStrip inner) :: findAnchors fuel rem
        else findAnchors fuel rest
      | _ => findAnchors fuel rest
    | _ => findAnchors fuel rest

/-- Button elements whose single string child matches `\d+:\d+`
(`soup.find("button", string=re.compile(r"\d+:\d+"))`): a button whose
content is a bare string (no nested markup) with a chapter:verse
occurrence. -/
def fallbackScripture (html : String) : String :=
  (((tagBlocks "button".data html.data.length html.data).filter
      (fun inner => ¬ inner.contains '<' ∧ hasChapterVerse inner)).head?.map
    getTextStrip).getD ""

/-! ## `scrape_devotional_page` -/

/-- The normalized devotional record built by `scrape_devotional_page`.
Fields the Python code stores without coercion keep the dynamic `JValue`
type; fields it always builds from strings are `String`s. -/
structure Devotional where
  title : JValue
  date : String
  author : JValue
  scripture : JValue
  featured_verse : String
  content : List String
  reflect_question : String
  reflect_prayer : String
  insights : String
  old_testament : String
  new_testament : String
  url : String
  image_url : String
deriving Repr

/-- URL normalization at the top of `scrape_devotional_page`. -/
def normalizeUrl (url : String) : String :=
  if startsWithL url "http" then url
  else if startsWithL url "/" then BASE_URL ++ url
  else BASE_URL ++ "/" ++ url

/-- Step `title = pm.get("pageTitle", "") or pm.get("heroTitle", "")`. -/
def extractTitle (pm : JValue) : Except PyError JValue := do
  let t1 ← pyGet pm "pageTitle" (.str "")
  if pyTruthy t1 then pure t1 else pyGet pm "heroTitle" (.str "")

/-- Step `date_str = parse_date(pm["devotionalDate"]) or ""` guarded by a key
test. -/
def extractDateStr (pm : JValue) : Except PyError String := do
  let hasIt ← pyInStr "devotionalDate" pm
  if hasIt then do
    let v ← pySubscript pm "devotionalDate"
    pure ((parse_date_j v).getD "")
  else pure ""

/-- The `hero = pm["heroContent"]`, hop-to-`model` pattern repeated in the
author / featured-verse / image blocks.  `none` when `heroContent` is
absent or not a dict (those blocks then leave their default). -/
def heroResolved (pm : JValue) : Except PyError (Option (List (String × JValue))) := do
  let hasHero ← pyInStr "heroContent" pm
  if hasHero then do
    let hero ← pySubscript pm "heroContent"
    match hero with
    | .obj hfs =>
      match jLookup hfs "model" with
      | some (.obj mfs) => pure (some mfs)
      | _ => pure (some hfs)
    | _ => pure none
  else pure none

/-- Author block: `heroContent(.model).author.name` with defined defaults. -/
def extractAuthor (pm : JValue) : Except PyError JValue := do
  let h ← heroResolved pm
  match h with
  | some hfs =>
    match jLookup hfs "author" with
    | some (.obj afs) => pure ((jLookup afs "name").getD (.str ""))
    | some _ => pure (.str "")
    | none => pure (.str "")
  | none => pure (.str "")

/-- Featured-verse block: `hero["summary"].strip()` (an `AttributeError`
when `summary` is present but not a string). -/
def extractFeatured (pm : JValue) : Except PyError String := do
  let h ← heroResolved pm
  match h with
  | some hfs =>
    match jLookup hfs "summary" with
    | some (.str s) => pure (pyStrip s)
    | some _ => .error (.attributeError "object has no attribute strip")
    | none => pure ""
  | none => pure ""

/-- Body paragraphs: parse `devotionBody` and keep non-empty paragraph
texts (`TypeError` when `devotionBody` is present but not a string, as
`BeautifulSoup` raises on non-markup input). -/
def extractContent (pm : JValue) : Except PyError (List String) := do
  let hasIt ← pyInStr "devotionBody" pm
  if hasIt then do
    let v ← pySubscript pm "devotionBody"
    match v with
    | .str s => pure ((tagTexts "p" s).filter (fun t => t ≠ ""))
    | _ => .error (.typeError "markup is not a string")
  else pure []

/-- Reflect question: text of the last `<strong>` in `reflectBody`. -/
def extractReflectQuestion (pm : JValue) : Except PyError String := do
  let hasIt ← pyInStr "reflectBody" pm
  if hasIt then do
    let v ← pySubscript pm "reflectBody"
    match v with
    | .str s => pure (((tagTexts "strong" s).getLast?).getD "")
    | _ => .error (.typeError "markup is not a string")
  else pure ""

/-- Prayer: text of the first `<em>` in `prayerBody`. -/
def extractPrayer (pm : JValue) : Except PyError String := do
  let hasIt ← pyInStr "prayerBody" pm
  if hasIt then do
    let v ← pySubscript pm "prayerBody"
    match v with
    | .str s => pure (((tagTexts "em" s).head?).getD "")
    | _ => .error (.typeError "markup is not a string")
  else pure ""

/-- Insights: paragraphs of `insightsBody` longer than 20 characters,
joined with single blanks. -/
def extractInsights (pm : JValue) : Except PyError String := do
  let hasIt ← pyInStr "insightsBody" pm
  if hasIt then do
    let v ← pySubscript pm "insightsBody"
    match v with
    | .str s =>
      pure (String.intercalate " "
        ((tagTexts "p" s).filter (fun t => t ≠ "" ∧ t.length > 20)))
    | _ => .error (.typeError "markup is not a string")
  else pure ""

/-- The 36 book-name substrings the code tests for the Old Testament
(Samuel, Kings, Chronicles unnumbered; `Song`, `Psalms` as written),
verbatim from the source. -/
def books36 : List String :=
  ["Genesis", "Exodus", "Leviticus", "Numbers", "Deuteronomy", "Joshua",
   "Judges", "Ruth", "Samuel", "Kings", "Chronicles", "Ezra", "Nehemiah",
   "Esther", "Job", "Psalms", "Proverbs", "Ecclesiastes", "Song", "Isaiah",
   "Jeremiah", "Lamentations", "Ezekiel", "Daniel", "Hosea", "Joel", "Amos",
   "Obadiah", "Jonah", "Micah", "Nahum", "Habakkuk", "Zephaniah", "Haggai",
   "Zechariah", "Malachi"]

/-- Semicolon split / testament classification of the first
bible-in-a-year entry's verse text. -/
def biaySplit (s : String) : String × String :=
  let parts := splitChar ';' s
  if parts.length ≥ 2 then (pyStrip (parts.getD 0 ""), pyStrip (parts.getD 1 ""))
  else if books36.any (fun b => strContains s b) then (s, "")
  else ("", s)

/-- Bible-in-a-year block, with the raises Python produces when the entry
list or entry has an unexpected shape. -/
def extractBiay (pm : JValue) : Except PyError (String × String) := do
  let hasIt ← pyInStr "bibleInAYearEntries" pm
  if hasIt then do
    let entries ← pySubscript pm "bibleInAYearEntries"
    if pyTruthy entries then
      match entries with
      | .arr (e :: _) =>
        match e with
        | .obj efs =>
          let verse := (jLookup efs "bibleVerseText").getD (.str "")
          if pyTruthy verse then
            match verse with
            | .str s => pure (biaySplit s)
            | _ => .error (.attributeError "object has no attribute split")
          else pure ("", "")
        | _ => .error (.attributeError "object has no attribute get")
      | .arr [] => pure ("", "")
      | .str _ => .error (.attributeError "object has no attribute get")
      | .obj _ => .error (.keyError "0")
      | _ => .error (.typeError "object is not subscriptable")
    else pure ("", "")
  else pure ("", "")

/-- Hero image block: nested `backgroundImage.url`, resolved to absolute. -/
def extractImage (pm : JValue) : Except PyError String := do
  let h ← heroResolved pm
  match h with
  | some hfs =>
    match jLookup hfs "backgroundImage" with
    | some (.obj bfs) =>
      let imgPath := (jLookup bfs "url").getD (.str "")
      if pyTruthy imgPath then
        match imgPath with
        | .str s => pure (if startsWithL s "/" then BASE_URL ++ s else s)
        | _ => .error (.attributeError "object has no attribute startswith")
      else pure ""
    | some _ => pure ""
    | none => pure ""
  | none => pure ""

/-- The embedded-data extraction strategy: every record field populated
from the parsed `pageModel` (and the request URL); the surrounding HTML is
not consulted. -/
def jsonExtract (fullUrl : String) (pm : JValue) : Except PyError Devotional := do
  let title ← extractTitle pm
  let date ← extractDateStr pm
  let author ← extractAuthor pm
  let featured ← extractFeatured pm
  let scripture ← pyGet pm "bibleVerseText" (.str "")
  let content ← extractContent pm
  let q ← extractReflectQuestion pm
  let pr ← extractPrayer pm
  let ins ← extractInsights pm
  let biay ← extractBiay pm
  let img ← extractImage pm
  return ⟨title, date, author, scripture, featured, content, q, pr, ins,
    biay.1, biay.2, fullUrl, img⟩

/-- Author heuristic of the HTML-fallback strategy: first `/authors/` link
whose text is short and does not look like an image filename. -/
def fallbackAuthor (html : String) : String :=
  ((((findAnchors html.data.length html.data).filter
      (fun a => strContains a.1 "/authors/")).filter
    (fun a => a.2 ≠ "" ∧ a.2.length < 50 ∧
      ¬ ([".jpg", ".png", ".gif", ".svg"].any
        (fun e => strContains (lowerStr a.2) e)))).head?.map
    (fun a => a.2)).getD ""

/-- Body heuristic of the fallback strategy: paragraphs of `<main>` longer
than 50 characters without boilerplate terms. -/
def fallbackContent (html : String) : List String :=
  match firstTagInner "main" html with
  | some inner =>
    (tagTexts "p" inner).filter (fun t => t.length > 50 ∧
      ¬ (["subscribe", "privacy", "terms", "cookie", "menu", "skip"].any
        (fun b => strContains (lowerStr t) b)))
  | none => []

/-- The HTML-fallback extraction strategy (no embedded `pageModel`). -/
def fallbackExtract (fullUrl : String) (html : String) : Devotional :=
  let title := (firstTagText "h1" html).getD ""
  let date_str := match searchMonthDate html.data.length false html.data with
    | some m => (parse_date m).getD ""
    | none => ""
  let featured := (searchVersePattern html.data.length html.data).getD ""
  ⟨.str title, date_str, .str (fallbackAuthor html), .str (fallbackScripture html),
    featured, fallbackContent html, "", "", "", "", "", fullUrl, ""⟩

/-- Does `scrape_devotional_page` take the embedded-data branch
(`page_data and "pageModel" in page_data`)? -/
def usesJsonPathB (html : String) : Bool :=
  match embeddedModel html with
  | some (.obj fs) => (¬ fs.isEmpty : Bool) && jHasKey fs "pageModel"
  | _ => false

/-- Model of `scrape_devotional_page` on pre-fetched HTML (the scraper
callers all pass `html_text`; the fetch branch is the site map's job). -/
def scrape_devotional_page (url : String) (html : String) :
    Except PyError Devotional := do
  let fullUrl := normalizeUrl url
  match embeddedModel html with
  | some pd =>
    let hasPm ← if pyTruthy pd then pyInStr "pageModel" pd else pure false
    if pyTruthy pd ∧ hasPm then do
      let pm ← pySubscript pd "pageModel"
      jsonExtract fullUrl pm
    else pure (fallbackExtract fullUrl html)
  | none => pure (fallbackExtract fullUrl html)

/-! ## `scrape_devotional_list`

The index page is modeled as the list of its anchor elements; each anchor
carries its `href` and the answers to the BeautifulSoup parent-container
queries the preview loop performs (whether `find_parent()` found a node,
the nested-heading text, the link text, and the parent's date / author /
preview / image query results). -/

/-- An anchor element of the index page together with the query results
the preview loop reads off its parent container. -/
structure PAnchor where
  href : String
  /-- `link.find_parent()` found a node. -/
  parentPresent : Bool
  /-- `extract_text` of `link.find("h2") or link.find("h3")`, when found. -/
  headingText : Option String
  /-- `extract_text(link)`. -/
  linkText : String
  /-- Text of the parent's date-pattern string node, when found. -/
  parentDateText : Option String
  /-- `extract_text` of the parent of the author-pattern string node. -/
  parentAuthorText : Option String
  /-- `extract_text` of the parent's preview/excerpt element, when found. -/
  parentPreviewText : Option String
  /-- `src` of the parent's first image element, when present. -/
  parentImgSrc : Option String
deriving Repr

/-- A `DevotionalPreview` record. -/
structure Preview where
  title : String
  date : String
  author : String
  preview : String
  url : String
  image_url : String
deriving Repr, DecidableEq

/-- Model of `find_all("a", href=re.compile(r"/devotionals/devotional-category/"))`:
anchors whose `href` matches by substring search. -/
def anchorMatches (a : PAnchor) : Bool :=
  strContains a.href "/devotionals/devotional-category/"

/-- The de-duplication loop over matched links (`seen` set, first-seen
order preserved, empty hrefs dropped). -/
def dedupAnchors : List PAnchor → List String → List PAnchor
  | [], _ => []
  | a :: rest, seen =>
    if a.href ≠ "" ∧ ¬ seen.contains a.href then
      a :: dedupAnchors rest (a.href :: seen)
    else dedupAnchors rest seen

/-- Resolve a possibly relative link target against the base URL. -/
def resolveUrl (u : String) : String :=
  if startsWithL u "/" then BASE_URL ++ u else u

/-- The per-link preview construction (`None` when the loop `continue`s:
empty href or no parent container). -/
def buildPreview (a : PAnchor) : Option Preview :=
  if a.href = "" then none
  else if a.parentPresent then
    some
      { title := a.headingText.getD a.linkText
        date := match a.parentDateText with
          | some t => (parse_date t).getD ""
          | none => ""
        author := a.parentAuthorText.getD ""
        preview := a.parentPreviewText.getD ""
        url := resolveUrl a.href
        image_url := match a.parentImgSrc with
          | some s => if s = "" then "" else resolveUrl s
          | none => "" }
  else none

/-- Model of `scrape_devotional_list` on an already-fetched index page.
The facade guarantees `1 ≤ limit ≤ 50` and `0 ≤ offset` before this
function is called, so the Python slice `[offset : offset + limit]`
coincides with drop-then-take on naturals. -/
def scrape_devotional_list (doc : List PAnchor) (limit offset : Nat) :
    List Preview :=
  let links := doc.filter anchorMatches
  let uniqueLinks := dedupAnchors links []
  let paginated := (uniqueLinks.drop offset).take limit
  paginated.filterMap buildPreview

/-! ## `scrape_by_date`

A site is a map from URL to page body; `none` models a fetch that raises.
The chain walk is the `for _ in range(400)` loop; each iteration performs
one fetch, so the bounded loop becomes structural recursion on fuel 400.
Each walk result also carries the number of fetches performed. -/

/-- Outcome of the bounded chain walk: a `return` out of the loop (with
whatever `scrape_devotional_page` produced, or an exception propagating
from `_parse_devotional_nav`), or falling off the loop (`break` / fuel
exhausted), after which the caller raises not-found. -/
inductive WalkOut where
  | ret (x : Except PyError Devotional)
  | stop
deriving Repr

/-- Catch-all step of the loop body: walk backward if a previous link
remains, else forward, else `break`. -/
def walkCatch (cont : String → WalkOut × Nat) (prevOpt nextOpt : Option String) :
    WalkOut × Nat :=
  match prevOpt with
  | some p => cont p
  | none =>
    match nextOpt with
    | some nx => cont nx
    | none => (.stop, 1)

/-- The chain walk of `scrape_by_date` (loop body in source order: fetch,
nav-extract, exact-string match, parsed-date comparison with directed
step, catch-all step). -/
def walk (site : String → Option String) (targetStr : String) (tv : DateV) :
    Nat → String → WalkOut × Nat
  | 0, _ => (.stop, 0)
  | fuel + 1, url =>
    match site url with
    | none => (.stop, 1)
    | some html =>
      match parse_devotional_nav html with
      | .error e => (.ret (.error e), 1)
      | .ok (dOpt, prevOpt, nextOpt) =>
        let cont : String → WalkOut × Nat := fun u =>
          let r := walk site targetStr tv fuel u
          (r.1, r.2 + 1)
        let dTruthy : Bool := match dOpt with
          | some s => s ≠ ""
          | none => false
        if dTruthy ∧ dOpt = some targetStr then
          (.ret (scrape_devotional_page url html), 1)
        else if dTruthy then
          match dOpt.bind (fun d => strptime_Ymd d) with
          | some pv =>
            if pv = tv then (.ret (scrape_devotional_page url html), 1)
            else
              match prevOpt, dateLtB tv pv with
              | some p, true => cont p
              | _, _ =>
                match nextOpt, dateLtB pv tv with
                | some nx, true => cont nx
                | _, _ => walkCatch cont prevOpt nextOpt
          | none => walkCatch cont prevOpt nextOpt
        else walkCatch cont prevOpt nextOpt

/-- The `ValueError` message for a malformed date. -/
def invalidDateMsg (date : String) : String :=
  "Invalid date format: " ++ date ++ ". Use YYYY-MM-DD"

/-- The `ValueError` message for an unmatched date. -/
def notFoundMsg (date : String) : String :=
  "Devotional not found for date: " ++ date

/-- Starting URL resolution of `scrape_by_date` (lines up to the walk):
fetch the index page (its failure propagates the fetch exception), collect
the devotional paths, de-duplicate, raise not-found when none matched, and
`/en`-prefix the first one. -/
def startResolveE (site : String → Option String) (date : String) :
    Except PyError String :=
  match site DEVOTIONALS_URL with
  | none => .error .fetchError
  | some listHtml =>
    match dedupFirstSeen (findallDevPaths listHtml.data.length listHtml.data) with
    | [] => .error (.valueError (notFoundMsg date))
    | p :: _ =>
      .ok (BASE_URL ++ (if startsWithL p "/" then "/en" ++ p else "/en/" ++ p))

/-- Model of `scrape_by_date` together with the number of fetches it
performs (index fetch plus walk fetches). -/
def scrape_by_date_core (site : String → Option String) (date : String) :
    (Except PyError Devotional) × Nat :=
  match strptime_Ymd date with
  | none => (.error (.valueError (invalidDateMsg date)), 0)
  | some tv =>
    match startResolveE site date with
    | .error e => (.error e, 1)
    | .ok cur =>
      let r := walk site date tv 400 cur
      ((match r.1 with
        | .ret x => x
        | .stop => .error (.valueError (notFoundMsg date))), 1 + r.2)

/-- Model of `scrape_by_date`. -/
def scrape_by_date (site : String → Option String) (date : String) :
    Except PyError Devotional :=
  (scrape_by_date_core site date).1

/-! ## Facade models (`api/main.py`) -/

/-- Outcome of a facade endpoint returning one devotional. -/
inductive DateResp where
  | ok (r : Devotional)
  | err (status : Nat) (detail : String)
deriving Repr

/-- The `/date/{date}` handler: `ValueError` becomes HTTP 404 with the
error text, any other exception becomes HTTP 500. -/
def get_by_date (site : String → Option String) (date : String) : DateResp :=
  match scrape_by_date site date with
  | .ok r => .ok r
  | .error (.valueError m) => .err 404 m
  | .error _ => .err 500 "Error fetching devotional"

/-- Response envelope of `GET /list`. -/
structure ListResp where
  status : Nat
  count : Nat
  limit : Int
  offset : Int
  devotionals : List Preview
deriving Repr, DecidableEq

/-- The `/list` handler.  The declared query parameters are
`limit: int = Query(default=10, ge=1, le=50)` and
`offset: int = Query(default=0, ge=0)`; this models FastAPI's documented
validation of those declarations: a missing parameter takes its default,
an out-of-range value is rejected with a 422 validation response before
the handler body (and hence the scraper) runs.  The second component
records the arguments the scraper was invoked with, if it was. -/
def get_list (doc : List PAnchor) (rawLimit rawOffset : Option Int) :
    ListResp × Option (Nat × Nat) :=
  let limit := rawLimit.getD 10
  let offset := rawOffset.getD 0
  if 1 ≤ limit ∧ limit ≤ 50 ∧ 0 ≤ offset then
    let devs := scrape_devotional_list doc limit.toNat offset.toNat
    (⟨200, devs.length, limit, offset, devs⟩, some (limit.toNat, offset.toNat))
  else (⟨422, 0, limit, offset, []⟩, none)

/-! ## Claim-side definitions

These definitions follow the specification's wording (not the code) and
exist only to compare the claims against the embedded code. -/

/-- Nav-extraction outcome at a URL of a site (`none` when the fetch fails
or the extraction raises). -/
def navInfo (site : String → Option String) (url : String) :
    Option (Option String × Option String × Option String) :=
  match site url with
  | none => none
  | some h =>
    match parse_devotional_nav h with
    | .ok t => some t
    | .error _ => none

/-- Claim wording for C1: a page whose extracted date equals the target is
reachable from `url` by following the previous/next link chain within the
given number of steps. -/
def reachableDatedB (site : String → Option String) (target : String) :
    Nat → String → Bool
  | 0, url =>
    match navInfo site url with
    | some (d, _, _) => d = some target
    | none => false
  | fuel + 1, url =>
    match navInfo site url with
    | some (d, p, nx) =>
      let viaPrev : Bool := match p with
        | some u => reachableDatedB site target fuel u
        | none => false
      let viaNext : Bool := match nx with
        | some u => reachableDatedB site target fuel u
        | none => false
      d = some target ∨ viaPrev ∨ viaNext
    | none => false

/-- Claim wording for C6: the 39 canonical Old Testament book names. -/
def canonical39 : List String :=
  ["Genesis", "Exodus", "Leviticus", "Numbers", "Deuteronomy", "Joshua",
   "Judges", "Ruth", "1 Samuel", "2 Samuel", "1 Kings", "2 Kings",
   "1 Chronicles", "2 Chronicles", "Ezra", "Nehemiah", "Esther", "Job",
   "Psalms", "Proverbs", "Ecclesiastes", "Song of Solomon", "Isaiah",
   "Jeremiah", "Lamentations", "Ezekiel", "Daniel", "Hosea", "Joel", "Amos",
   "Obadiah", "Jonah", "Micah", "Nahum", "Habakkuk", "Zephaniah", "Haggai",
   "Zechariah", "Malachi"]

/-- Claim wording for C4: the HTML contains, right after the embedded-data
marker, a substring that parses as a JSON object with a `pageModel` key. -/
def hasValidEmbeddedPageModel (html : String) : Prop :=
  ∃ idx j fs, findSubAux modelMarker html.data 0 = some idx ∧
    jsonLoadsL ((html.data.drop (idx + 16)).take j) = some (JValue.obj fs) ∧
    jHasKey fs "pageModel" = true

/-- Claim wording for C8: a facade that *clamps* `limit` into `[1, 50]`
and `offset` to `≥ 0` instead of validating them. -/
def get_list_clamped (doc : List PAnchor) (rawLimit rawOffset : Option Int) :
    ListResp × Option (Nat × Nat) :=
  let limit := min 50 (max 1 (rawLimit.getD 10))
  let offset := max 0 (rawOffset.getD 0)
  let devs := scrape_devotional_list doc limit.toNat offset.toNat
  (⟨200, devs.length, limit, offset, devs⟩, some (limit.toNat, offset.toNat))

/-! ## Concrete instances used by counterexamples and witnesses -/

/-- HTML of the end-to-end scenario in C5. -/
def c5Html : String :=
  "<html>window._model = \x7b\"pageModel\": \x7b\"pageTitle\": \"Faith\", \"devotionalDate\": \"2024-01-18T00:00:00\", \"bibleVerseText\": \"John 3:16\", \"devotionBody\": \"<p>Hello world paragraph text.</p>\"\x7d\x7d</html>"

/-- The decoded page model embedded in `c5Html`. -/
def c5Pm : JValue :=
  .obj [("pageTitle", .str "Faith"),
    ("devotionalDate", .str "2024-01-18T00:00:00"),
    ("bibleVerseText", .str "John 3:16"),
    ("devotionBody", .str "<p>Hello world paragraph text.</p>")]

/-- The decoded top-level object embedded in `c5Html`. -/
def c5Fields : List (String × JValue) := [("pageModel", c5Pm)]

/-- Index page of the single-page counterexample site for C1. -/
def c1ListHtml : String :=
  "<a href=\"/devotionals/devotional-category/a\">today</a>"

/-- Devotional page whose nav date (`otherDate`) is 2024-01-05 but whose
page model carries no `devotionalDate`. -/
def c1PageHtml : String :=
  "window._model = \x7b\"pageModel\": \x7b\"otherDate\": \"2024-01-05T00:00:00\"\x7d\x7d"

/-- Resolved starting URL of the C1 counterexample site. -/
def c1Start : String :=
  "https://www.odbm.org/en/devotionals/devotional-category/a"

/-- The C1 counterexample site. -/
def c1Site : String → Option String := fun u =>
  if u = DEVOTIONALS_URL then some c1ListHtml
  else if u = c1Start then some c1PageHtml
  else none

/-- HTML whose embedded JSON is a valid object with a `pageModel`, but
whose `pageTitle` string contains an open brace, so the raw brace scan
never balances (C4). -/
def c4Html : String :=
  "window._model = \x7b\"pageModel\": \x7b\"pageTitle\": \"T\x7b\"\x7d\x7d<h1>F</h1>"

/-- Page-model HTML with the given bible-in-a-year verse text (C6). -/
def biayHtml (v : String) : String :=
  "window._model = \x7b\"pageModel\": \x7b\"bibleInAYearEntries\": [\x7b\"bibleVerseText\": \"" ++
    v ++ "\"\x7d]\x7d\x7d"

/-- HTML whose page model has a numeric `heroContent.summary` (C7). -/
def c7Html : String :=
  "window._model = \x7b\"pageModel\": \x7b\"heroContent\": \x7b\"summary\": 5\x7d\x7d\x7d"

/-- HTML whose page model is a truthy non-dict (C10). -/
def c10Html : String :=
  "window._model = \x7b\"pageModel\": \"x\"\x7d"

/-- An index-page anchor with the given `href` and a present parent. -/
def plainAnchor (h : String) : PAnchor :=
  ⟨h, true, none, "t", none, none, none, none⟩

/-- Index page of the C1 witness site. -/
def c1wList : String :=
  "<a href=\"/devotionals/devotional-category/c\">x</a>"

/-- Starting (and target) URL of the C1 witness chain. -/
def c1wStart : String :=
  "https://www.odbm.org/en/devotionals/devotional-category/c"

/-- The single chain page of the C1 witness site: consistent
`devotionalDate` feeding both the nav date and the record date. -/
def c1wPage : String :=
  "window._model = \x7b\"pageModel\": \x7b\"devotionalDate\": \"2024-01-05T00:00:00\"\x7d\x7d"

/-- The C1 witness site (a one-page monotone chain). -/
def c1wSite : String → Option String := fun u =>
  if u = DEVOTIONALS_URL then some c1wList
  else if u = c1wStart then some c1wPage else none

/-- The record extracted from the C1 witness page. -/
def c1wRecord : Devotional :=
  ⟨.str "", "2024-01-05", .str "", .str "", "", [], "", "", "", "", "",
    c1wStart, ""⟩

/-- Index page holding the same devotional path once relative and once
absolute (C9). -/
def c9Doc : List PAnchor :=
  [plainAnchor "/devotionals/devotional-category/x",
   plainAnchor "https://www.odbm.org/devotionals/devotional-category/x"]

/-- The full URL both C9 anchors resolve to. -/
def c9Url : String := "https://www.odbm.org/devotionals/devotional-category/x"

/-- Index page of the C2 witness site. -/
def c2ListHtml : String :=
  "<a href=\"/devotionals/devotional-category/b\">today</a>"

/-- Resolved starting URL of the C2 witness site. -/
def c2Start : String :=
  "https://www.odbm.org/en/devotionals/devotional-category/b"

/-- The C2 witness site: one devotional page with no embedded model and no
navigation links, so the walk breaks without a match. -/
def c2Site : String → Option String := fun u =>
  if u = DEVOTIONALS_URL then some c2ListHtml
  else if u = c2Start then some "<p>no model</p>" else none

/-- For C10's amended claim: a nav-link field (when present and truthy)
must be a string for `_parse_devotional_nav` not to raise. -/
def urlFieldOk (pfs : List (String × JValue)) (key : String) : Bool :=
  match jLookup pfs key with
  | some v => if pyTruthy v then (match v with | .str _ => true | _ => false) else true
  | none => true

/-- For C10's amended claim: shapes of the resolved `pageModel` on which
`_parse_devotional_nav` is raise-free — a dict whose navigation-link
fields, when present and truthy, are strings. -/
def navSafe : JValue → Bool
  | .obj pfs =>
    urlFieldOk pfs "previousDevotionalUrl" && urlFieldOk pfs "nextDevotionalUrl"
  | _ => false

/-- The hero fields `heroResolved` lands on for a dict page model (the
pure value of the repeated `heroContent` / `model` hop). -/
def heroFields (pfs : List (String × JValue)) : Option (List (String × JValue)) :=
  match jLookup pfs "heroContent" with
  | some (.obj hfs) =>
    match jLookup hfs "model" with
    | some (.obj mfs) => some mfs
    | _ => some hfs
  | _ => none

/-- For C7's amended claim: `hero["summary"].strip()` does not raise —
`summary` absent or a string. -/
def summaryOk (hfs : List (String × JValue)) : Bool :=
  match jLookup hfs "summary" with
  | some (.str _) => true
  | some _ => false
  | none => true

/-- For C7's amended claim: the `backgroundImage.url` block does not raise
— a truthy `url` under a dict `backgroundImage` must be a string. -/
def imageOk (hfs : List (String × JValue)) : Bool :=
  match jLookup hfs "backgroundImage" with
  | some (.obj bfs) =>
    (match jLookup bfs "url" with
     | some v =>
       if pyTruthy v then (match v with | .str _ => true | _ => false) else true
     | none => true)
  | _ => true

/-- For C7's amended claim: a body field handed to `BeautifulSoup` must be
absent or a string. -/
def strFieldOk (pfs : List (String × JValue)) (key : String) : Bool :=
  match jLookup pfs key with
  | some (.str _) => true
  | some _ => false
  | none => true

/-- For C7's amended claim: the bible-in-a-year block does not raise — a
truthy entries value must be a non-empty list whose first entry is a dict
with a string-or-falsy `bibleVerseText`. -/
def biaySafe (pfs : List (String × JValue)) : Bool :=
  match jLookup pfs "bibleInAYearEntries" with
  | some v =>
    if pyTruthy v then
      match v with
      | .arr (e :: _) =>
        (match e with
         | .obj efs =>
           (let verse := (jLookup efs "bibleVerseText").getD (.str "")
            if pyTruthy verse then
              (match verse with | .str _ => true | _ => false)
            else true)
         | _ => false)
      | _ => false
    else true
  | none => true

/-- For C7's amended claim: the hero-dependent blocks do not raise. -/
def heroOk (pfs : List (String × JValue)) : Bool :=
  match heroFields pfs with
  | some hfs => summaryOk hfs && imageOk hfs
  | none => true

/-- For C7's amended claim: every sub-field of the page model is absent or
of the shape the extractor expects, so no block raises. -/
def pmSafe (pfs : List (String × JValue)) : Bool :=
  heroOk pfs && strFieldOk pfs "devotionBody" && strFieldOk pfs "reflectBody" &&
  strFieldOk pfs "prayerBody" && strFieldOk pfs "insightsBody" && biaySafe pfs

/-! ## Theorems for the claims -/

/-- C5: HTML containing the given `window._model` page model yields a
record with `title="Faith"`, `date="2024-01-18"`, `scripture="John 3:16"`
and `content=["Hello world paragraph text."]`. -/
theorem c5_end_to_end :
    (scrape_devotional_page "https://x" c5Html).map
      (fun r => (r.title, r.date, r.scripture, r.content)) =
    .ok (.str "Faith", "2024-01-18", .str "John 3:16",
      ["Hello world paragraph text."]) := rfl

/-- C3: a date string rejected by `strptime("%Y-%m-%d")` makes
`scrape_by_date` fail with the invalid-format `ValueError` without
performing a single fetch, on every site, and the `/date/{date}` facade
surfaces it as HTTP 404. -/
theorem c3_invalid_date (site : String → Option String) (date : String)
    (h : strptime_Ymd date = none) :
    scrape_by_date_core site date =
      (.error (.valueError (invalidDateMsg date)), 0) ∧
    get_by_date site date = .err 404 (invalidDateMsg date) := by
  have h1 : scrape_by_date_core site date =
      (.error (.valueError (invalidDateMsg date)), 0) := by
    unfold scrape_by_date_core
    rw [h]
  refine ⟨h1, ?_⟩
  unfold get_by_date scrape_by_date
  rw [h1]

/-- Witness for C3 at the two malformed dates named by the claim. -/
theorem c3_invalid_date_witness :
    strptime_Ymd "2024-13-40" = none ∧ strptime_Ymd "not-a-date" = none ∧
    get_by_date (fun _ => none) "2024-13-40" =
      .err 404 (invalidDateMsg "2024-13-40") ∧
    get_by_date (fun _ => none) "not-a-date" =
      .err 404 (invalidDateMsg "not-a-date") :=
  ⟨rfl, rfl, (c3_invalid_date (fun _ => none) "2024-13-40" rfl).2,
    (c3_invalid_date (fun _ => none) "not-a-date" rfl).2⟩

/-- C1 counterexample: on a site whose starting page's nav-extracted date
(`otherDate`) equals the target — so a page with the target's extracted
date is reachable in zero steps — `scrape_by_date` succeeds but returns a
record whose `date` field is `""` (built from `devotionalDate`, which is
absent), not the input date. -/
theorem c1_counterexample :
    startResolveE c1Site "2024-01-05" = .ok c1Start ∧
    reachableDatedB c1Site "2024-01-05" 400 c1Start = true ∧
    (scrape_by_date c1Site "2024-01-05").map Devotional.date = .ok "" ∧
    ("" : String) ≠ "2024-01-05" :=
  ⟨rfl, rfl, rfl, by decide⟩

/-- C4 counterexample: `c4Html` contains a valid embedded JSON `pageModel`
(witnessed by the 34-character prefix after the marker), yet the extractor
takes the fallback branch and its `title` comes from the `<h1>` heuristic,
not from the JSON `pageTitle`. -/
theorem c4_counterexample :
    hasValidEmbeddedPageModel c4Html ∧
    usesJsonPathB c4Html = false ∧
    (scrape_devotional_page "https://x" c4Html).map Devotional.title =
      .ok (.str "F") ∧
    JValue.str "F" ≠ JValue.str "T\x7b" :=
  ⟨⟨0, 34, [("pageModel", .obj [("pageTitle", .str "T\x7b")])], rfl, rfl, rfl⟩,
    rfl, rfl, by intro h; injection h with h2; exact absurd h2 (by decide)⟩

/-- C6 counterexample: the verse text `"Samuel 3"` contains none of the 39
canonical Old Testament book names (the claim's heuristic would classify
it as New Testament), yet the extractor assigns it to `old_testament`,
because the code tests 36 unnumbered name substrings, not the canonical 39
names. -/
theorem c6_counterexample :
    (scrape_devotional_page "u" (biayHtml "Samuel 3")).map
      (fun r => (r.old_testament, r.new_testament)) = .ok ("Samuel 3", "") ∧
    canonical39.all (fun b => ¬ strContains "Samuel 3" b) = true :=
  ⟨rfl, rfl⟩

/-- C7 counterexample: a present but non-string `heroContent.summary`
makes `scrape_devotional_page` raise `AttributeError` (from `.strip()`),
so unexpectedly shaped sub-fields are not always tolerated. -/
theorem c7_counterexample :
    scrape_devotional_page "https://x" c7Html =
      .error (.attributeError "object has no attribute strip") := rfl

/-- C10 counterexample: on HTML whose parsed `pageModel` is the truthy
non-dict `"x"`, `_parse_devotional_nav` raises `AttributeError` (from
`pm.get`) instead of returning a triple, so it is not total. -/
theorem c10_counterexample :
    parse_devotional_nav c10Html =
      .error (.attributeError "object has no attribute get") := rfl

/-- C8 counterexample: at `limit=51` the facade produces a 422 validation
response and never invokes the scraper; a clamping facade (the claim's
wording) would have invoked it with `limit=50` and answered 200. -/
theorem c8_counterexample :
    (get_list [] (some 51) (some 0)).1.status = 422 ∧
    (get_list [] (some 51) (some 0)).2 = none ∧
    (get_list_clamped [] (some 51) (some 0)).1.status = 200 ∧
    (get_list_clamped [] (some 51) (some 0)).2 = some (50, 0) :=
  ⟨rfl, rfl, rfl, rfl⟩

/-- C9 counterexample: an index page carrying the same devotional once as
a relative and once as an absolute link yields two previews with the same
resolved URL — the de-duplication is by raw `href`, so the returned list
can repeat a URL. -/
theorem c9_counterexample :
    (scrape_devotional_list c9Doc 10 0).map Preview.url = [c9Url, c9Url] ∧
    ¬ ((scrape_devotional_list c9Doc 10 0).map Preview.url).Nodup :=
  ⟨rfl, by decide⟩

/-- The chain walk performs at most `fuel` fetches. -/
theorem walk_steps_le (site : String → Option String) (ts : String) (tv : DateV) :
    ∀ fuel url, (walk site ts tv fuel url).2 ≤ fuel := by
  intro fuel
  induction fuel with
  | zero => intro url; simp [walk]
  | succ n ih =>
    intro url
    have hcatch : ∀ (p nx : Option String),
        (walkCatch (fun u => ((walk site ts tv n u).1, (walk site ts tv n u).2 + 1))
          p nx).2 ≤ n + 1 := by
      intro p nx
      cases p with
      | some p => simpa [walkCatch] using Nat.succ_le_succ (ih p)
      | none =>
        cases nx with
        | some nx2 => simpa [walkCatch] using Nat.succ_le_succ (ih nx2)
        | none => simp [walkCatch]
    simp only [walk]
    cases hs : site url with
    | none => simp
    | some html =>
      cases hn : parse_devotional_nav html with
      | error e => simp [hn]
      | ok t =>
        obtain ⟨dOpt, prevOpt, nextOpt⟩ := t
        simp only [hn]
        split
        · simp
        · split
          · split
            · split
              · simp
              · split
                · exact Nat.succ_le_succ (ih _)
                · split
                  · exact Nat.succ_le_succ (ih _)
                  · exact hcatch _ _
            · exact hcatch _ _
          · exact hcatch _ _

/-- Signature of the three-way case split of `scrape_by_date_core` used in
the C2 proof: when the start URL resolves, the core's result is determined
by the walk from it. -/
theorem core_of_start (site : String → Option String) (date : String) (tv : DateV)
    (u : String) (hstrp : strptime_Ymd date = some tv)
    (hstart : startResolveE site date = .ok u) :
    scrape_by_date_core site date =
      ((match (walk site date tv 400 u).1 with
        | .ret x => x
        | .stop => .error (.valueError (notFoundMsg date))),
       1 + (walk site date tv 400 u).2) := by
  unfold scrape_by_date_core
  rw [hstrp, hstart]

/-- C2: for every site (cyclic link chains included) and every input date,
the chain walk performs at most 400 fetches — at most 401 fetches overall
— and whenever the walk falls off the loop (step budget exhausted or links
exhausted without a date match), `scrape_by_date` fails with the not-found
`ValueError`. -/
theorem c2_chain_walk_bounded (site : String → Option String) (date : String) :
    (scrape_by_date_core site date).2 ≤ 401 ∧
    (∀ tv fuel url, (walk site date tv fuel url).2 ≤ fuel) ∧
    (∀ tv u, strptime_Ymd date = some tv → startResolveE site date = .ok u →
      (walk site date tv 400 u).1 = WalkOut.stop →
      scrape_by_date site date = .error (.valueError (notFoundMsg date))) := by
  refine ⟨?_, fun tv fuel url => walk_steps_le site date tv fuel url, ?_⟩
  · unfold scrape_by_date_core
    split
    · simp
    · split
      · simp
      · rename_i x1 tv h1 x2 cur h2
        show 1 + (walk site date tv 400 cur).2 ≤ 401
        have h := walk_steps_le site date tv 400 cur
        omega
  · intro tv u hstrp hstart hstop
    unfold scrape_by_date
    rw [core_of_start site date tv u hstrp hstart]
    rw [hstop]

/-- Witness for C2: a concrete site on which the links are exhausted
without a match and `scrape_by_date` raises the not-found error. -/
theorem c2_chain_walk_bounded_witness :
    strptime_Ymd "2024-01-05" = some ⟨2024, 1, 5⟩ ∧
    startResolveE c2Site "2024-01-05" = .ok c2Start ∧
    (walk c2Site "2024-01-05" ⟨2024, 1, 5⟩ 400 c2Start).1 = WalkOut.stop ∧
    scrape_by_date c2Site "2024-01-05" =
      .error (.valueError (notFoundMsg "2024-01-05")) :=
  ⟨rfl, rfl, rfl,
    (c2_chain_walk_bounded c2Site "2024-01-05").2.2 ⟨2024, 1, 5⟩ c2Start rfl rfl rfl⟩

/-- C8 (amended): the facade validates rather than clamps — in-range or
defaulted parameters reach the scraper unchanged, out-of-range parameters
produce a 422 validation response with the scraper never invoked, and any
invocation of the scraper has `limit` within `[1, 50]`. -/
theorem c8_facade_validation (doc : List PAnchor) (rl ro : Option Int) :
    ((1 ≤ rl.getD 10 ∧ rl.getD 10 ≤ 50 ∧ 0 ≤ ro.getD 0) →
      (get_list doc rl ro).1.status = 200 ∧
      (get_list doc rl ro).2 = some ((rl.getD 10).toNat, (ro.getD 0).toNat)) ∧
    (¬ (1 ≤ rl.getD 10 ∧ rl.getD 10 ≤ 50 ∧ 0 ≤ ro.getD 0) →
      (get_list doc rl ro).1.status = 422 ∧ (get_list doc rl ro).2 = none) ∧
    (get_list doc none none).2 = some (10, 0) ∧
    (∀ l o, (get_list doc rl ro).2 = some (l, o) →
      1 ≤ l ∧ l ≤ 50 ∧
      (get_list doc rl ro).1.devotionals = scrape_devotional_list doc l o) := by
  by_cases h : (1 ≤ rl.getD 10 ∧ rl.getD 10 ≤ 50 ∧ 0 ≤ ro.getD 0)
  · refine ⟨fun _ => ⟨by simp [get_list, h], by simp [get_list, h]⟩,
      fun hc => absurd h hc, rfl, ?_⟩
    intro l o hlo
    unfold get_list at hlo
    rw [if_pos h] at hlo
    simp only [Option.some.injEq, Prod.mk.injEq] at hlo
    obtain ⟨hl1, hl2⟩ := hlo
    subst hl1; subst hl2
    refine ⟨by omega, by omega, ?_⟩
    unfold get_list
    rw [if_pos h]
  · refine ⟨fun hc => absurd hc h, fun _ => ⟨by simp [get_list, h], by simp [get_list, h]⟩,
      rfl, ?_⟩
    intro l o hlo
    simp [get_list, h] at hlo

/-- Witness for C8 at concrete in-range parameters. -/
theorem c8_facade_validation_witness :
    (get_list [] (some 50) (some 3)).2 = some (50, 3) ∧
    1 ≤ 50 ∧ (50 : Nat) ≤ 50 :=
  ⟨((c8_facade_validation [] (some 50) (some 3)).1 (by decide)).2, by decide, by decide⟩

/-- The de-duplication loop returns anchors with pairwise distinct,
non-empty hrefs avoiding the `seen` set. -/
theorem dedupAnchors_nodup (l : List PAnchor) :
    ∀ seen : List String,
      ((dedupAnchors l seen).map PAnchor.href).Nodup ∧
      ∀ a ∈ dedupAnchors l seen, a.href ∉ seen ∧ a.href ≠ "" := by
  induction l with
  | nil => intro seen; simp [dedupAnchors]
  | cons a rest ih =>
    intro seen
    by_cases h : a.href ≠ "" ∧ ¬ seen.contains a.href
    · simp only [dedupAnchors, if_pos h]
      obtain ⟨ihn, ihm⟩ := ih (a.href :: seen)
      refine ⟨?_, ?_⟩
      · simp only [List.map_cons, List.nodup_cons]
        refine ⟨?_, ihn⟩
        intro hmem
        obtain ⟨b, hb, hbh⟩ := List.mem_map.mp hmem
        exact (ihm b hb).1 (by simp [hbh])
      · intro b hb
        rcases List.mem_cons.mp hb with hba | hbr
        · subst hba
          refine ⟨?_, h.1⟩
          intro hmem
          exact h.2 (List.elem_eq_true_of_mem hmem)
        · obtain ⟨hns, hne⟩ := ihm b hbr
          exact ⟨fun hmem => hns (List.mem_cons_of_mem _ hmem), hne⟩
    · simp only [dedupAnchors, if_neg h]
      obtain ⟨ihn, ihm⟩ := ih seen
      exact ⟨ihn, ihm⟩

/-- On anchors with non-empty hrefs, the preview loop keeps exactly those
with a parent container and resolves their hrefs. -/
theorem filterMap_buildPreview_urls (l : List PAnchor)
    (h : ∀ a ∈ l, a.href ≠ "") :
    (l.filterMap buildPreview).map Preview.url =
      (l.filter (fun a => a.parentPresent)).map (fun a => resolveUrl a.href) := by
  induction l with
  | nil => rfl
  | cons a rest ih =>
    have ha : a.href ≠ "" := h a (List.mem_cons_self a rest)
    have hrest : ∀ b ∈ rest, b.href ≠ "" := fun b hb => h b (List.mem_cons_of_mem _ hb)
    by_cases hp : a.parentPresent
    · have : buildPreview a = some
        { title := a.headingText.getD a.linkText
          date := match a.parentDateText with
            | some t => (parse_date t).getD ""
            | none => ""
          author := a.parentAuthorText.getD ""
          preview := a.parentPreviewText.getD ""
          url := resolveUrl a.href
          image_url := match a.parentImgSrc with
            | some s => if s = "" then "" else resolveUrl s
            | none => "" } := by
        unfold buildPreview
        rw [if_neg (by simpa using ha), if_pos hp]
      simp [List.filterMap_cons, this, List.filter_cons, hp, ih hrest]
    · have : buildPreview a = none := by
        unfold buildPreview
        rw [if_neg (by simpa using ha), if_neg hp]
      simp [List.filterMap_cons, this, List.filter_cons, hp, ih hrest]

/-- C9 (amended): the list scraper de-duplicates the matched links by raw
`href` in first-seen order, slices `[offset, offset+limit)`, and keeps
each surviving link with a parent container; the result has at most
`limit` entries and its URLs are the resolved hrefs of that slice (two
distinct hrefs can still resolve to the same full URL). -/
theorem c9_list_dedup (doc : List PAnchor) (limit offset : Nat) :
    ((dedupAnchors (doc.filter anchorMatches) []).map PAnchor.href).Nodup ∧
    (scrape_devotional_list doc limit offset).length ≤ limit ∧
    (scrape_devotional_list doc limit offset).map Preview.url =
      ((((dedupAnchors (doc.filter anchorMatches) []).drop offset).take
        limit).filter (fun a => a.parentPresent)).map
        (fun a => resolveUrl a.href) := by
  obtain ⟨hn, hm⟩ := dedupAnchors_nodup (doc.filter anchorMatches) []
  refine ⟨hn, ?_, ?_⟩
  · calc (scrape_devotional_list doc limit offset).length
        ≤ (((dedupAnchors (doc.filter anchorMatches) []).drop offset).take
            limit).length := List.length_filterMap_le _ _
      _ ≤ limit := List.length_take_le _ _
  · refine filterMap_buildPreview_urls _ ?_
    intro a ha
    have : a ∈ dedupAnchors (doc.filter anchorMatches) [] :=
      List.mem_of_mem_drop (List.mem_of_mem_take ha)
    exact (hm a this).2

/-- Bind of a successful `Except` computation. -/
@[simp] theorem except_bind_ok {ε α β : Type} (a : α) (f : α → Except ε β) :
    (Except.ok a : Except ε α) >>= f = f a := rfl

/-- Pure value in the `Except` monad. -/
@[simp] theorem except_pure_def {ε α : Type} (a : α) :
    (pure a : Except ε α) = Except.ok a := rfl

/-- Test `key in pm` on a dict is the key test. -/
theorem pyInStr_obj (k : String) (pfs : List (String × JValue)) :
    pyInStr k (.obj pfs) = .ok (jHasKey pfs k) := rfl

/-- Call `pm.get` on a dict is the defaulted lookup. -/
theorem pyGet_obj (pfs : List (String × JValue)) (k : String) (d : JValue) :
    pyGet (.obj pfs) k d = .ok ((jLookup pfs k).getD d) := rfl

/-- Dict subscription with a present key. -/
theorem pySubscript_obj (pfs : List (String × JValue)) (k : String) (v : JValue)
    (h : jLookup pfs k = some v) : pySubscript (.obj pfs) k = .ok v := by
  simp [pySubscript, h]

/-- The `otherDate` block never raises on a dict page model. -/
theorem navOtherDate_obj_ok (pfs : List (String × JValue)) :
    ∃ d, navOtherDate (.obj pfs) = .ok d := by
  unfold navOtherDate
  rw [pyInStr_obj, except_bind_ok]
  by_cases h : jHasKey pfs "otherDate"
  · rw [if_pos h]
    obtain ⟨v, hv⟩ : ∃ v, jLookup pfs "otherDate" = some v :=
      Option.isSome_iff_exists.mp h
    rw [pySubscript_obj pfs _ v hv, except_bind_ok]
    cases v with
    | str s =>
      dsimp only
      split
      · exact ⟨_, rfl⟩
      · exact ⟨_, rfl⟩
    | null => exact ⟨_, rfl⟩
    | bool b => exact ⟨_, rfl⟩
    | num n => exact ⟨_, rfl⟩
    | arr xs => exact ⟨_, rfl⟩
    | obj fs => exact ⟨_, rfl⟩
  · rw [if_neg h]
    exact ⟨_, rfl⟩

/-- The `devotionalDate` fallback never raises on a dict page model. -/
theorem navDate2_obj_ok (pfs : List (String × JValue)) (d1 : Option String) :
    ∃ d, navDate2 (.obj pfs) d1 = .ok d := by
  unfold navDate2
  dsimp only
  split
  · exact ⟨_, rfl⟩
  · rw [pyInStr_obj, except_bind_ok]
    by_cases h : jHasKey pfs "devotionalDate"
    · rw [if_pos h]
      obtain ⟨v, hv⟩ : ∃ v, jLookup pfs "devotionalDate" = some v :=
        Option.isSome_iff_exists.mp h
      rw [pySubscript_obj pfs _ v hv, except_bind_ok]
      exact ⟨_, rfl⟩
    · rw [if_neg h]
      exact ⟨_, rfl⟩

/-- A navigation link with a string-or-falsy value never raises on a dict
page model. -/
theorem navLink_obj_ok (pfs : List (String × JValue)) (key : String)
    (hok : urlFieldOk pfs key = true) :
    ∃ u, navLink (.obj pfs) key = .ok u := by
  unfold navLink
  rw [pyGet_obj, except_bind_ok]
  unfold urlFieldOk at hok
  cases hl : jLookup pfs key with
  | none => exact ⟨none, rfl⟩
  | some v =>
    rw [hl] at hok
    dsimp only at hok
    simp only [Option.getD_some]
    by_cases ht : pyTruthy v
    · rw [if_pos ht] at hok
      cases v with
      | str s =>
        refine ⟨some (if startsWithL s "/" then BASE_URL ++ s else s), ?_⟩
        simp [ht, except_pure_def]
      | null => exact absurd hok (by simp)
      | bool b => exact absurd hok (by simp)
      | num n => exact absurd hok (by simp)
      | arr xs => exact absurd hok (by simp)
      | obj fs => exact absurd hok (by simp)
    · refine ⟨none, ?_⟩
      rw [if_neg ht]
      rfl

/-- Function `navFromPm` never raises on a safe page model. -/
theorem navFromPm_safe_ok (pm : JValue) (h : navSafe pm = true) :
    ∃ t, navFromPm pm = .ok t := by
  cases pm with
  | obj pfs =>
    unfold navSafe at h
    obtain ⟨hp, hn⟩ := Bool.and_eq_true_iff.mp h
    obtain ⟨d1, h1⟩ := navOtherDate_obj_ok pfs
    obtain ⟨d2, h2⟩ := navDate2_obj_ok pfs d1
    obtain ⟨pu, h3⟩ := navLink_obj_ok pfs "previousDevotionalUrl" hp
    obtain ⟨nu, h4⟩ := navLink_obj_ok pfs "nextDevotionalUrl" hn
    refine ⟨(d2, pu, nu), ?_⟩
    unfold navFromPm
    rw [h1, except_bind_ok, h2, except_bind_ok, h3, except_bind_ok, h4,
      except_bind_ok]
    rfl
  | null => exact absurd h (by simp [navSafe])
  | bool b => exact absurd h (by simp [navSafe])
  | num n => exact absurd h (by simp [navSafe])
  | str s => exact absurd h (by simp [navSafe])
  | arr xs => exact absurd h (by simp [navSafe])

/-- C10 (amended): `_parse_devotional_nav` returns `(None, None, None)`
when the marker is absent or the balanced slice does not parse, and it
returns a triple without raising whenever the resolved `pageModel` is a
dict whose navigation-link fields are strings or falsy; it can raise
(only) when the embedded JSON gives `pageModel` an unexpected shape. -/
theorem c10_nav_total :
    (∀ html, findSubAux modelMarker html.data 0 = none →
      parse_devotional_nav html = .ok (none, none, none)) ∧
    (∀ html slice, navSlice html = some slice → jsonLoadsL slice = none →
      parse_devotional_nav html = .ok (none, none, none)) ∧
    (∀ html slice data, navSlice html = some slice →
      jsonLoadsL slice = some data → navSafe (navPmOf data) = true →
      ∃ t, parse_devotional_nav html = .ok t) := by
  refine ⟨?_, ?_, ?_⟩
  · intro html h
    unfold parse_devotional_nav navSlice
    rw [h]
  · intro html slice h1 h2
    unfold parse_devotional_nav
    rw [h1]
    dsimp only
    rw [h2]
  · intro html slice data h1 h2 h3
    unfold parse_devotional_nav
    rw [h1]
    dsimp only
    rw [h2]
    exact navFromPm_safe_ok _ h3

/-- Witness for C10: the three amended cases at concrete pages. -/
theorem c10_nav_total_witness :
    parse_devotional_nav "no marker here" = .ok (none, none, none) ∧
    parse_devotional_nav "window._model = \x7b\"a\": 1" =
      .ok (none, none, none) ∧
    parse_devotional_nav c1PageHtml =
      .ok (some "2024-01-05", none, none) := by
  refine ⟨c10_nav_total.1 "no marker here" rfl, ?_, ?_⟩
  · exact c10_nav_total.2.1 "window._model = \x7b\"a\": 1" [] rfl rfl
  · obtain ⟨t, ht⟩ := c10_nav_total.2.2 c1PageHtml
      "\x7b\"pageModel\": \x7b\"otherDate\": \"2024-01-05T00:00:00\"\x7d\x7d".data
      (.obj [("pageModel",
        .obj [("otherDate", .str "2024-01-05T00:00:00")])]) rfl rfl rfl
    rw [ht]
    have : t = (some "2024-01-05", none, none) := by
      have h2 : Except.ok (ε := PyError) t =
          Except.ok (ε := PyError)
            ((some "2024-01-05" : Option String),
             (none : Option String), (none : Option String)) := by
        rw [← ht]
        rfl
      exact (Except.ok.inj h2)
    rw [this]

/-- C6 (amended): the two scenario splits hold end to end, and for a
semicolon-free verse text the classifier assigns Old Testament exactly
when the text contains one of the code's 36 book-name substrings (not the
39 canonical names). -/
theorem c6_bible_in_a_year :
    (scrape_devotional_page "u" (biayHtml "Genesis 1; John 1")).map
      (fun r => (r.old_testament, r.new_testament)) =
      .ok ("Genesis 1", "John 1") ∧
    (scrape_devotional_page "u" (biayHtml "Genesis 1")).map
      (fun r => (r.old_testament, r.new_testament)) = .ok ("Genesis 1", "") ∧
    (∀ s : String, (splitChar ';' s).length < 2 →
      (books36.any (fun b => strContains s b) = true → biaySplit s = (s, "")) ∧
      (books36.any (fun b => strContains s b) = false →
        biaySplit s = ("", s))) := by
  refine ⟨rfl, rfl, ?_⟩
  intro s h
  have hlen : ¬ (splitChar ';' s).length ≥ 2 := by omega
  constructor
  · intro hb
    unfold biaySplit
    rw [if_neg hlen, if_pos hb]
  · intro hb
    unfold biaySplit
    rw [if_neg hlen, if_neg (by simp [hb])]

/-- Witness for C6 on concrete semicolon-free verse texts of both
classifications. -/
theorem c6_bible_in_a_year_witness :
    (splitChar ';' "Samuel 3").length < 2 ∧
    books36.any (fun b => strContains "Samuel 3" b) = true ∧
    biaySplit "Samuel 3" = ("Samuel 3", "") ∧
    (splitChar ';' "Acts 2").length < 2 ∧
    books36.any (fun b => strContains "Acts 2" b) = false ∧
    biaySplit "Acts 2" = ("", "Acts 2") :=
  ⟨by decide, by decide,
    (c6_bible_in_a_year.2.2 "Samuel 3" (by decide)).1 (by decide),
    by decide, by decide,
    (c6_bible_in_a_year.2.2 "Acts 2" (by decide)).2 (by decide)⟩

/-- Starting segments of a list: the boolean test implies the appended
form. -/
theorem isPrefixOf_exists_append :
    ∀ (a b : List Char), a.isPrefixOf b = true → ∃ t, b = a ++ t := by
  intro a
  induction a with
  | nil => intro b _; exact ⟨b, rfl⟩
  | cons c cs ih =>
    intro b h
    cases b with
    | nil => simp [List.isPrefixOf] at h
    | cons e es =>
      simp only [List.isPrefixOf, Bool.and_eq_true, beq_iff_eq] at h
      obtain ⟨rfl, h2⟩ := h
      obtain ⟨t, ht⟩ := ih es h2
      exact ⟨t, by rw [ht]; rfl⟩

/-- A successful substring search means the needle is a prefix of the
remainder at the found index. -/
theorem findSubAux_found (needle : List Char) :
    ∀ (cs : List Char) (i j : Nat), findSubAux needle cs i = some j →
      i ≤ j ∧ needle.isPrefixOf (cs.drop (j - i)) = true := by
  intro cs
  induction cs with
  | nil =>
    intro i j h
    unfold findSubAux at h
    by_cases he : needle.isEmpty
    · rw [if_pos he] at h
      obtain rfl : i = j := Option.some.inj h
      refine ⟨le_refl _, ?_⟩
      simp only [Nat.sub_self, List.drop_nil]
      cases needle with
      | nil => rfl
      | cons c cs2 => simp at he
    · rw [if_neg he] at h
      exact absurd h (by simp)
  | cons c rest ih =>
    intro i j h
    unfold findSubAux at h
    by_cases hp : needle.isPrefixOf (c :: rest) = true
    · rw [if_pos hp] at h
      obtain rfl : i = j := Option.some.inj h
      simpa using hp
    · rw [if_neg hp] at h
      obtain ⟨hle, hpre⟩ := ih (i + 1) j h
      refine ⟨by omega, ?_⟩
      have hj : j - i = (j - (i + 1)) + 1 := by omega
      rw [hj]
      simpa using hpre

/-- The suffix just after the marker's `window._model = ` begins with the
open brace. -/
theorem marker_suffix_lbrace (html : String) (idx : Nat)
    (h : findSubAux modelMarker html.data 0 = some idx) :
    ∃ t, html.data.drop (idx + 16) = lbrace :: t := by
  obtain ⟨-, hpre⟩ := findSubAux_found modelMarker html.data 0 idx h
  rw [Nat.sub_zero] at hpre
  obtain ⟨t, ht⟩ := isPrefixOf_exists_append modelMarker _ hpre
  refine ⟨t, ?_⟩
  have hdd : html.data.drop (idx + 16) = List.drop 16 (html.data.drop idx) := by
    rw [List.drop_drop]
  rw [hdd, ht, List.drop_append_eq_append_drop]
  rfl

/-- The object loop of the JSON parser only produces objects. -/
theorem jObjLoop_obj (pv : List Char → Option (JValue × List Char)) :
    ∀ (fuel : Nat) (cs : List Char) (acc : List (String × JValue))
      (v : JValue) (rest : List Char),
      jObjLoop pv fuel cs acc = some (v, rest) → ∃ fs, v = JValue.obj fs := by
  intro fuel
  induction fuel with
  | zero => intro cs acc v rest h; simp [jObjLoop] at h
  | succ n ih =>
    intro cs acc v rest h
    rw [jObjLoop] at h
    split at h
    · exact absurd h (by simp)
    · split at h
      · split at h
        · obtain ⟨hv, -⟩ := Prod.mk.inj (Option.some.inj h)
          exact ⟨[], hv.symm⟩
        · exact absurd h (by simp)
      · split at h
        · split at h
          · exact absurd h (by simp)
          · split at h
            · split at h
              · exact absurd h (by simp)
              · split at h
                · split at h
                  · exact ih _ _ _ _ h
                  · split at h
                    · obtain ⟨hv, -⟩ := Prod.mk.inj (Option.some.inj h)
                      exact ⟨_, hv.symm⟩
                    · exact absurd h (by simp)
                · exact absurd h (by simp)
            · exact absurd h (by simp)
        · exact absurd h (by simp)

/-- A `json.loads` of text beginning with an open brace only produces an
object. -/
theorem jsonLoadsL_lbrace_obj (rest : List Char) (v : JValue)
    (h : jsonLoadsL (lbrace :: rest) = some v) : ∃ fs, v = JValue.obj fs := by
  unfold jsonLoadsL at h
  cases hv : jVal ((lbrace :: rest).length + 1) (lbrace :: rest) with
  | none => rw [hv] at h; exact absurd h (by simp)
  | some p =>
    rw [hv] at h
    obtain ⟨v2, rest2⟩ := p
    have hdw : (lbrace :: rest).dropWhile isJWs = lbrace :: rest := by
      rw [List.dropWhile_cons]
      rw [if_neg (by simp [isJWs, lbrace])]
    rw [jVal, hdw] at hv
    dsimp only at hv
    rw [if_pos rfl] at hv
    dsimp only at h
    split at h
    · obtain rfl : v2 = v := Option.some.inj h
      exact jObjLoop_obj _ _ _ _ _ _ hv
    · exact absurd h (by simp)

/-- Every parse the retrying scan accepts starts at the original scan
start, so on a suffix beginning with an open brace it only produces
objects. -/
theorem scanRetry_obj (cs0 : List Char) (h0 : ∃ t, cs0 = lbrace :: t) :
    ∀ (fuel : Nat) (cs : List Char) (count : Int) (taken : List Char)
      (v : JValue),
      taken.reverse ++ cs = cs0 → scanRetry fuel cs count taken = some v →
      ∃ fs, v = JValue.obj fs := by
  intro fuel
  induction fuel with
  | zero => intro cs count taken v hpre h; simp [scanRetry] at h
  | succ n ih =>
    intro cs count taken v hpre h
    cases cs with
    | nil => simp [scanRetry] at h
    | cons c rest =>
      have hpre2 : (c :: taken).reverse ++ rest = cs0 := by
        simpa using hpre
      rw [scanRetry] at h
      dsimp only at h
      by_cases hc1 : c = lbrace
      · rw [if_pos hc1] at h
        exact ih _ _ _ _ hpre2 h
      · rw [if_neg hc1] at h
        by_cases hc2 : c = rbrace
        · rw [if_pos hc2] at h
          by_cases hc3 : count - 1 = 0
          · rw [if_pos hc3] at h
            cases hload : jsonLoadsL ((c :: taken).reverse) with
            | some w =>
              rw [hload] at h
              obtain rfl : w = v := Option.some.inj h
              obtain ⟨t, ht0⟩ := h0
              rw [ht0] at hpre2
              cases hr : (c :: taken).reverse with
              | nil => exact absurd hr (by simp)
              | cons x xs =>
                rw [hr] at hpre2 hload
                simp only [List.cons_append] at hpre2
                obtain ⟨rfl, -⟩ := List.cons.inj hpre2
                exact jsonLoadsL_lbrace_obj xs w hload
            | none =>
              rw [hload] at h
              exact ih _ _ _ _ hpre2 h
          · rw [if_neg hc3] at h
            exact ih _ _ _ _ hpre2 h
        · rw [if_neg hc2] at h
          exact ih _ _ _ _ hpre2 h

/-- The embedded model computed by `scrape_devotional_page` is always a
JSON object (the scanned prefix starts at the marker's open brace). -/
theorem embeddedModel_obj (html : String) (v : JValue)
    (h : embeddedModel html = some v) : ∃ fs, v = JValue.obj fs := by
  unfold embeddedModel at h
  cases hf : findSubAux modelMarker html.data 0 with
  | none => rw [hf] at h; exact absurd h (by simp)
  | some idx =>
    rw [hf] at h
    dsimp only at h
    obtain ⟨t, ht⟩ := marker_suffix_lbrace html idx hf
    exact scanRetry_obj (html.data.drop (idx + 16)) ⟨t, ht⟩ _ _ _ _ _ (by simp) h

/-- When the scanned embedded model is a non-empty object with a
`pageModel` key, `scrape_devotional_page` is exactly `jsonExtract` of that
page model. -/
theorem scrape_json_branch (url html : String) (fs : List (String × JValue))
    (pm : JValue) (he : embeddedModel html = some (JValue.obj fs))
    (hlook : jLookup fs "pageModel" = some pm) (hemp : fs.isEmpty = false) :
    scrape_devotional_page url html = jsonExtract (normalizeUrl url) pm := by
  unfold scrape_devotional_page
  rw [he]
  dsimp only
  have hpt : pyTruthy (.obj fs) = true := by
    simp [pyTruthy]
    simpa using hemp
  have hkey : jHasKey fs "pageModel" = true := by
    unfold jHasKey
    rw [hlook]
    rfl
  rw [if_pos (by simp [hpt]), pyInStr_obj, except_bind_ok]
  rw [if_pos (by simp [hpt, hkey])]
  rw [pySubscript_obj fs _ pm hlook, except_bind_ok]

/-- C4 (amended): the extractor takes the embedded-data branch exactly
when the retrying raw-brace scan (braces inside JSON strings counted)
yields a parsable prefix that is a non-empty object with a `pageModel`
key; otherwise it falls back to the HTML heuristics, and when the branch
is taken the whole record is `jsonExtract` of the `pageModel` alone — the
surrounding HTML is never consulted. -/
theorem c4_strategy_selection (url html : String) :
    (usesJsonPathB html = true ↔
      ∃ fs, embeddedModel html = some (JValue.obj fs) ∧ fs.isEmpty = false ∧
        jHasKey fs "pageModel" = true) ∧
    (usesJsonPathB html = false →
      scrape_devotional_page url html =
        .ok (fallbackExtract (normalizeUrl url) html)) ∧
    (∀ fs pm, embeddedModel html = some (JValue.obj fs) →
      jLookup fs "pageModel" = some pm → fs.isEmpty = false →
      scrape_devotional_page url html = jsonExtract (normalizeUrl url) pm) := by
  refine ⟨?_, ?_, ?_⟩
  · unfold usesJsonPathB
    cases he : embeddedModel html with
    | none => simp
    | some pd =>
      cases pd with
      | obj fs =>
        constructor
        · intro hb
          obtain ⟨h1, h2⟩ := Bool.and_eq_true_iff.mp hb
          exact ⟨fs, rfl, by simpa using h1, h2⟩
        · rintro ⟨fs2, heq, h1, h2⟩
          obtain rfl : fs = fs2 := by
            have := Option.some.inj heq
            exact JValue.obj.inj this
          simp [h1, h2]
      | null =>
        obtain ⟨fs, hfs⟩ := embeddedModel_obj html _ he
        exact absurd hfs (by simp)
      | bool b =>
        obtain ⟨fs, hfs⟩ := embeddedModel_obj html _ he
        exact absurd hfs (by simp)
      | num n =>
        obtain ⟨fs, hfs⟩ := embeddedModel_obj html _ he
        exact absurd hfs (by simp)
      | str s =>
        obtain ⟨fs, hfs⟩ := embeddedModel_obj html _ he
        exact absurd hfs (by simp)
      | arr xs =>
        obtain ⟨fs, hfs⟩ := embeddedModel_obj html _ he
        exact absurd hfs (by simp)
  · intro hfalse
    unfold scrape_devotional_page
    cases he : embeddedModel html with
    | none => rfl
    | some pd =>
      obtain ⟨fs, rfl⟩ := embeddedModel_obj html pd he
      unfold usesJsonPathB at hfalse
      rw [he] at hfalse
      dsimp only at hfalse ⊢
      by_cases hemp : fs.isEmpty
      · have hpt : pyTruthy (.obj fs) = false := by
          simp [pyTruthy, hemp]
        rw [if_neg (by simp [hpt])]
        rw [except_pure_def, except_bind_ok]
        rw [if_neg (by simp [hpt])]
        rfl
      · have hpt : pyTruthy (.obj fs) = true := by
          simp [pyTruthy]
          simpa using hemp
        have hkey : jHasKey fs "pageModel" = false := by
          rcases Bool.and_eq_false_iff.mp hfalse with h | h
          · exact absurd (by simpa using h) hemp
          · exact h
        rw [if_pos (by simp [hpt]), pyInStr_obj, except_bind_ok]
        rw [if_neg (by simp [hkey])]
        rfl
  · intro fs pm he hlook hemp
    exact scrape_json_branch url html fs pm he hlook hemp

/-- Witness for C4: the fallback case on plain HTML and the embedded-data
case on the C5 page. -/
theorem c4_strategy_selection_witness :
    usesJsonPathB "<h1>plain</h1>" = false ∧
    scrape_devotional_page "https://x" "<h1>plain</h1>" =
      .ok (fallbackExtract (normalizeUrl "https://x") "<h1>plain</h1>") ∧
    embeddedModel c5Html = some (JValue.obj c5Fields) ∧
    jLookup c5Fields "pageModel" = some c5Pm ∧
    scrape_devotional_page "https://x" c5Html =
      jsonExtract (normalizeUrl "https://x") c5Pm :=
  ⟨rfl,
    (c4_strategy_selection "https://x" "<h1>plain</h1>").2.1 rfl,
    rfl, rfl,
    (c4_strategy_selection "https://x" c5Html).2.2 c5Fields c5Pm rfl rfl rfl⟩

/-- The title extraction never raises on a dict page model. -/
theorem extractTitle_obj_ok (pfs : List (String × JValue)) :
    ∃ t, extractTitle (.obj pfs) = .ok t := by
  unfold extractTitle
  rw [pyGet_obj, except_bind_ok]
  by_cases h : pyTruthy ((jLookup pfs "pageTitle").getD (.str ""))
  · rw [if_pos h]
    exact ⟨_, rfl⟩
  · rw [if_neg h, pyGet_obj]
    exact ⟨_, rfl⟩

/-- The date extraction never raises on a dict page model and defaults to
the empty string when `devotionalDate` is absent. -/
theorem extractDateStr_obj_ok (pfs : List (String × JValue)) :
    ∃ d, extractDateStr (.obj pfs) = .ok d ∧
      (jLookup pfs "devotionalDate" = none → d = "") := by
  unfold extractDateStr
  rw [pyInStr_obj, except_bind_ok]
  cases hl : jLookup pfs "devotionalDate" with
  | none =>
    have hk : jHasKey pfs "devotionalDate" = false := by
      unfold jHasKey
      rw [hl]
      rfl
    rw [if_neg (by simp [hk])]
    exact ⟨"", rfl, fun _ => rfl⟩
  | some v =>
    have hk : jHasKey pfs "devotionalDate" = true := by
      unfold jHasKey
      rw [hl]
      rfl
    rw [if_pos (by simp [hk]), pySubscript_obj pfs _ v hl, except_bind_ok]
    exact ⟨_, rfl, fun habs => absurd habs (by simp [hl])⟩

/-- Function `heroResolved` computes `heroFields` on a dict page model. -/
theorem heroResolved_obj (pfs : List (String × JValue)) :
    heroResolved (.obj pfs) = .ok (heroFields pfs) := by
  unfold heroResolved heroFields
  rw [pyInStr_obj, except_bind_ok]
  cases hl : jLookup pfs "heroContent" with
  | none =>
    have hk : jHasKey pfs "heroContent" = false := by
      unfold jHasKey
      rw [hl]
      rfl
    rw [if_neg (by simp [hk])]
    rfl
  | some v =>
    have hk : jHasKey pfs "heroContent" = true := by
      unfold jHasKey
      rw [hl]
      rfl
    rw [if_pos (by simp [hk]), pySubscript_obj pfs _ v hl, except_bind_ok]
    cases v with
    | obj hfs =>
      dsimp only
      cases hm : jLookup hfs "model" with
      | none => rfl
      | some m => cases m <;> rfl
    | null => rfl
    | bool b => rfl
    | num n => rfl
    | str s => rfl
    | arr xs => rfl

/-- Function `heroFields` is `none` when `heroContent` is absent. -/
theorem heroFields_none (pfs : List (String × JValue))
    (h : jLookup pfs "heroContent" = none) : heroFields pfs = none := by
  unfold heroFields
  rw [h]

/-- The author extraction never raises on a dict page model and defaults
to the empty string when `heroContent` is absent. -/
theorem extractAuthor_obj_ok (pfs : List (String × JValue)) :
    ∃ a, extractAuthor (.obj pfs) = .ok a ∧
      (jLookup pfs "heroContent" = none → a = .str "") := by
  unfold extractAuthor
  rw [heroResolved_obj, except_bind_ok]
  cases hh : heroFields pfs with
  | none => exact ⟨.str "", rfl, fun _ => rfl⟩
  | some hfs =>
    have hvac : ¬ jLookup pfs "heroContent" = none := fun habs => by
      rw [heroFields_none pfs habs] at hh
      exact Option.noConfusion hh
    cases hl : jLookup hfs "author" with
    | none => exact ⟨.str "", by simp [hl], fun habs => absurd habs hvac⟩
    | some v =>
      cases v with
      | obj afs =>
        exact ⟨(jLookup afs "name").getD (.str ""), by simp [hl],
          fun habs => absurd habs hvac⟩
      | null => exact ⟨.str "", by simp [hl], fun habs => absurd habs hvac⟩
      | bool b => exact ⟨.str "", by simp [hl], fun habs => absurd habs hvac⟩
      | num n => exact ⟨.str "", by simp [hl], fun habs => absurd habs hvac⟩
      | str s => exact ⟨.str "", by simp [hl], fun habs => absurd habs hvac⟩
      | arr xs => exact ⟨.str "", by simp [hl], fun habs => absurd habs hvac⟩

/-- The featured-verse extraction never raises when the hero summary is
absent or a string, and defaults when `heroContent` is absent. -/
theorem extractFeatured_obj_ok (pfs : List (String × JValue))
    (hok : heroOk pfs = true) :
    ∃ f, extractFeatured (.obj pfs) = .ok f ∧
      (jLookup pfs "heroContent" = none → f = "") := by
  unfold extractFeatured
  rw [heroResolved_obj, except_bind_ok]
  cases hh : heroFields pfs with
  | none => exact ⟨"", rfl, fun _ => rfl⟩
  | some hfs =>
    have hvac : ¬ jLookup pfs "heroContent" = none := fun habs => by
      rw [heroFields_none pfs habs] at hh
      exact Option.noConfusion hh
    unfold heroOk at hok
    rw [hh] at hok
    dsimp only at hok
    obtain ⟨hsum, -⟩ := Bool.and_eq_true_iff.mp hok
    unfold summaryOk at hsum
    cases hl : jLookup hfs "summary" with
    | none => exact ⟨"", by simp [hl], fun habs => absurd habs hvac⟩
    | some v =>
      rw [hl] at hsum
      cases v with
      | str s => exact ⟨pyStrip s, by simp [hl], fun habs => absurd habs hvac⟩
      | null => exact absurd hsum (by simp)
      | bool b => exact absurd hsum (by simp)
      | num n => exact absurd hsum (by simp)
      | arr xs => exact absurd hsum (by simp)
      | obj fs2 => exact absurd hsum (by simp)

/-- A body-fragment extraction step never raises when the field is absent
or a string; shared shape of the content / reflect / prayer / insights
lemmas. -/
theorem bodyField_obj_ok {α : Type} (pfs : List (String × JValue)) (key : String)
    (dflt : α) (f : String → α) (hok : strFieldOk pfs key = true) :
    ∃ c, (do
      let hasIt ← pyInStr key (.obj pfs)
      if hasIt then do
        let v ← pySubscript (.obj pfs) key
        match v with
        | .str s => pure (f s)
        | _ => (.error (.typeError "markup is not a string") : Except PyError α)
      else pure dflt) = .ok c ∧
      (jLookup pfs key = none → c = dflt) := by
  rw [pyInStr_obj, except_bind_ok]
  unfold strFieldOk at hok
  cases hl : jLookup pfs key with
  | none =>
    have hk : jHasKey pfs key = false := by
      unfold jHasKey
      rw [hl]
      rfl
    rw [if_neg (by simp [hk])]
    exact ⟨dflt, rfl, fun _ => rfl⟩
  | some v =>
    have hk : jHasKey pfs key = true := by
      unfold jHasKey
      rw [hl]
      rfl
    rw [hl] at hok
    rw [if_pos (by simp [hk]), pySubscript_obj pfs _ v hl, except_bind_ok]
    cases v with
    | str s => exact ⟨f s, rfl, fun habs => absurd habs (by simp [hl])⟩
    | null => exact absurd hok (by simp)
    | bool b => exact absurd hok (by simp)
    | num n => exact absurd hok (by simp)
    | arr xs => exact absurd hok (by simp)
    | obj fs2 => exact absurd hok (by simp)

/-- The bible-in-a-year extraction never raises on safe shapes and
defaults to empty strings on an absent or empty entry list. -/
theorem extractBiay_obj_ok (pfs : List (String × JValue))
    (hok : biaySafe pfs = true) :
    ∃ b, extractBiay (.obj pfs) = .ok b ∧
      (jLookup pfs "bibleInAYearEntries" = none ∨
        jLookup pfs "bibleInAYearEntries" = some (.arr []) → b = ("", "")) := by
  unfold extractBiay
  rw [pyInStr_obj, except_bind_ok]
  unfold biaySafe at hok
  cases hl : jLookup pfs "bibleInAYearEntries" with
  | none =>
    have hk : jHasKey pfs "bibleInAYearEntries" = false := by
      unfold jHasKey
      rw [hl]
      rfl
    rw [if_neg (by simp [hk])]
    exact ⟨("", ""), rfl, fun _ => rfl⟩
  | some v =>
    have hk : jHasKey pfs "bibleInAYearEntries" = true := by
      unfold jHasKey
      rw [hl]
      rfl
    rw [hl] at hok
    dsimp only at hok
    rw [if_pos (by simp [hk]), pySubscript_obj pfs _ v hl, except_bind_ok]
    by_cases ht : pyTruthy v
    · rw [if_pos ht] at hok ⊢
      cases v with
      | arr xs =>
        cases xs with
        | nil => exact absurd ht (by simp [pyTruthy])
        | cons e rest =>
          cases e with
          | obj efs =>
            dsimp only at hok ⊢
            by_cases hv : pyTruthy ((jLookup efs "bibleVerseText").getD (.str ""))
            · rw [if_pos hv] at hok ⊢
              cases hverse : (jLookup efs "bibleVerseText").getD (.str "") with
              | str s =>
                refine ⟨biaySplit s, rfl, ?_⟩
                rintro (habs | habs) <;> simp [hl] at habs
              | null => rw [hverse] at hok; exact absurd hok (by simp)
              | bool b => rw [hverse] at hok; exact absurd hok (by simp)
              | num n => rw [hverse] at hok; exact absurd hok (by simp)
              | arr ys => rw [hverse] at hok; exact absurd hok (by simp)
              | obj gs => rw [hverse] at hok; exact absurd hok (by simp)
            · rw [if_neg hv]
              refine ⟨("", ""), rfl, fun _ => rfl⟩
          | null => exact absurd hok (by simp)
          | bool b => exact absurd hok (by simp)
          | num n => exact absurd hok (by simp)
          | str s => exact absurd hok (by simp)
          | arr ys => exact absurd hok (by simp)
      | null => exact absurd hok (by simp)
      | bool b => exact absurd hok (by simp)
      | num n => exact absurd hok (by simp)
      | str s => exact absurd hok (by simp)
      | obj gs => exact absurd hok (by simp)
    · rw [if_neg ht]
      exact ⟨("", ""), rfl, fun _ => rfl⟩

/-- The image extraction never raises on safe shapes and defaults when
`heroContent` is absent. -/
theorem extractImage_obj_ok (pfs : List (String × JValue))
    (hok : heroOk pfs = true) :
    ∃ i, extractImage (.obj pfs) = .ok i ∧
      (jLookup pfs "heroContent" = none → i = "") := by
  unfold extractImage
  rw [heroResolved_obj, except_bind_ok]
  cases hh : heroFields pfs with
  | none => exact ⟨"", rfl, fun _ => rfl⟩
  | some hfs =>
    have hvac : ¬ jLookup pfs "heroContent" = none := fun habs => by
      rw [heroFields_none pfs habs] at hh
      exact Option.noConfusion hh
    unfold heroOk at hok
    rw [hh] at hok
    dsimp only at hok
    obtain ⟨-, himg⟩ := Bool.and_eq_true_iff.mp hok
    unfold imageOk at himg
    cases hl : jLookup hfs "backgroundImage" with
    | none => exact ⟨"", by simp [hl], fun habs => absurd habs hvac⟩
    | some v =>
      rw [hl] at himg
      cases v with
      | obj bfs =>
        dsimp only at himg ⊢
        cases hu : jLookup bfs "url" with
        | none =>
          refine ⟨"", ?_, fun habs => absurd habs hvac⟩
          simp [hl, hu, pyTruthy]
        | some uv =>
          rw [hu] at himg
          dsimp only at himg
          by_cases hurl : pyTruthy uv
          · rw [if_pos hurl] at himg
            cases uv with
            | str s =>
              refine ⟨if startsWithL s "/" then BASE_URL ++ s else s, ?_, ?_⟩
              · simp [hl, hu, hurl]
              · exact fun habs => absurd habs hvac
            | null => exact absurd himg (by simp)
            | bool b => exact absurd himg (by simp)
            | num n => exact absurd himg (by simp)
            | arr ys => exact absurd himg (by simp)
            | obj gs => exact absurd himg (by simp)
          · refine ⟨"", ?_, fun habs => absurd habs hvac⟩
            simp [hl, hu, hurl]
      | null => exact ⟨"", by simp [hl], fun habs => absurd habs hvac⟩
      | bool b => exact ⟨"", by simp [hl], fun habs => absurd habs hvac⟩
      | num n => exact ⟨"", by simp [hl], fun habs => absurd habs hvac⟩
      | str s => exact ⟨"", by simp [hl], fun habs => absurd habs hvac⟩
      | arr ys => exact ⟨"", by simp [hl], fun habs => absurd habs hvac⟩

/-- Function `jsonExtract` succeeds on a safe page model, with the documented
defaults for absent fields. -/
theorem jsonExtract_obj_ok (u : String) (pfs : List (String × JValue))
    (h4 : pmSafe pfs = true) :
    ∃ r, jsonExtract u (.obj pfs) = .ok r ∧
      (jLookup pfs "devotionalDate" = none → r.date = "") ∧
      (jLookup pfs "heroContent" = none →
        r.author = .str "" ∧ r.featured_verse = "" ∧ r.image_url = "") ∧
      (jLookup pfs "devotionBody" = none → r.content = []) ∧
      (jLookup pfs "reflectBody" = none → r.reflect_question = "") ∧
      (jLookup pfs "prayerBody" = none → r.reflect_prayer = "") ∧
      (jLookup pfs "insightsBody" = none → r.insights = "") ∧
      (jLookup pfs "bibleInAYearEntries" = none ∨
        jLookup pfs "bibleInAYearEntries" = some (.arr []) →
        r.old_testament = "" ∧ r.new_testament = "") := by
  obtain ⟨hHero, hDev, hRef, hPra, hIns, hBia⟩ : heroOk pfs = true ∧
      strFieldOk pfs "devotionBody" = true ∧ strFieldOk pfs "reflectBody" = true ∧
      strFieldOk pfs "prayerBody" = true ∧ strFieldOk pfs "insightsBody" = true ∧
      biaySafe pfs = true := by
    unfold pmSafe at h4
    simp only [Bool.and_eq_true] at h4
    tauto
  obtain ⟨t, hT⟩ := extractTitle_obj_ok pfs
  obtain ⟨d, hD, hDdef⟩ := extractDateStr_obj_ok pfs
  obtain ⟨a, hA, hAdef⟩ := extractAuthor_obj_ok pfs
  obtain ⟨f, hF, hFdef⟩ := extractFeatured_obj_ok pfs hHero
  obtain ⟨c, hC, hCdef⟩ := bodyField_obj_ok pfs "devotionBody" []
    (fun s => (tagTexts "p" s).filter (fun t2 => t2 ≠ "")) hDev
  obtain ⟨q, hQ, hQdef⟩ := bodyField_obj_ok pfs "reflectBody" ""
    (fun s => ((tagTexts "strong" s).getLast?).getD "") hRef
  obtain ⟨pr, hP, hPdef⟩ := bodyField_obj_ok pfs "prayerBody" ""
    (fun s => ((tagTexts "em" s).head?).getD "") hPra
  obtain ⟨ins, hI, hIdef⟩ := bodyField_obj_ok pfs "insightsBody" ""
    (fun s => String.intercalate " "
      ((tagTexts "p" s).filter (fun t2 => t2 ≠ "" ∧ t2.length > 20))) hIns
  obtain ⟨b, hB, hBdef⟩ := extractBiay_obj_ok pfs hBia
  obtain ⟨i, hIm, hImdef⟩ := extractImage_obj_ok pfs hHero
  refine ⟨⟨t, d, a, (jLookup pfs "bibleVerseText").getD (.str ""), f, c, q, pr,
    ins, b.1, b.2, u, i⟩, ?_, hDdef, ?_, hCdef, hQdef, hPdef, hIdef, ?_⟩
  · unfold jsonExtract extractContent extractReflectQuestion extractPrayer
      extractInsights
    rw [hT, except_bind_ok, hD, except_bind_ok, hA, except_bind_ok, hF,
      except_bind_ok, pyGet_obj, except_bind_ok, hC, except_bind_ok, hQ,
      except_bind_ok, hP, except_bind_ok, hI, except_bind_ok, hB,
      except_bind_ok, hIm, except_bind_ok]
    rfl
  · exact fun habs => ⟨hAdef habs, hFdef habs, hImdef habs⟩
  · exact fun habs => ⟨congrArg Prod.fst (hBdef habs), congrArg Prod.snd (hBdef habs)⟩

/-- C7 (amended): when the embedded page model is a dict whose sub-fields
are absent or of the expected shapes, `scrape_devotional_page` never
raises — each absent field defaults to its empty value.  (A present
sub-field of an unexpected type, such as a numeric `heroContent.summary`,
can still raise; see the counterexample.) -/
theorem c7_partial_extraction (url html : String)
    (fs pfs : List (String × JValue))
    (h1 : embeddedModel html = some (.obj fs))
    (h2 : jLookup fs "pageModel" = some (.obj pfs))
    (h3 : fs.isEmpty = false)
    (h4 : pmSafe pfs = true) :
    ∃ r, scrape_devotional_page url html = .ok r ∧
      (jLookup pfs "devotionalDate" = none → r.date = "") ∧
      (jLookup pfs "heroContent" = none →
        r.author = .str "" ∧ r.featured_verse = "" ∧ r.image_url = "") ∧
      (jLookup pfs "devotionBody" = none → r.content = []) ∧
      (jLookup pfs "reflectBody" = none → r.reflect_question = "") ∧
      (jLookup pfs "prayerBody" = none → r.reflect_prayer = "") ∧
      (jLookup pfs "insightsBody" = none → r.insights = "") ∧
      (jLookup pfs "bibleInAYearEntries" = none ∨
        jLookup pfs "bibleInAYearEntries" = some (.arr []) →
        r.old_testament = "" ∧ r.new_testament = "") := by
  have heq := scrape_json_branch url html fs (.obj pfs) h1 h2 h3
  rw [heq]
  exact jsonExtract_obj_ok (normalizeUrl url) pfs h4

/-- Witness for C7 at a page model carrying only a title. -/
theorem c7_partial_extraction_witness :
    embeddedModel "window._model = \x7b\"pageModel\": \x7b\"pageTitle\": \"T\"\x7d\x7d" =
      some (.obj [("pageModel", .obj [("pageTitle", .str "T")])]) ∧
    pmSafe [("pageTitle", JValue.str "T")] = true ∧
    (∃ r, scrape_devotional_page "https://x"
        "window._model = \x7b\"pageModel\": \x7b\"pageTitle\": \"T\"\x7d\x7d" =
      .ok r ∧ r.date = "" ∧ r.content = []) := by
  refine ⟨rfl, rfl, ?_⟩
  obtain ⟨r, hr, hd, -, hc, -⟩ := c7_partial_extraction "https://x"
    "window._model = \x7b\"pageModel\": \x7b\"pageTitle\": \"T\"\x7d\x7d"
    [("pageModel", .obj [("pageTitle", .str "T")])] [("pageTitle", .str "T")]
    rfl rfl rfl rfl
  exact ⟨r, hr, hd rfl, hc rfl⟩

/-- A string accepted by `strptime` is non-empty. -/
theorem strptime_ne_empty (s : String) (v : DateV)
    (h : strptime_Ymd s = some v) : s ≠ "" := by
  intro he
  rw [he] at h
  exact Option.noConfusion h

/-- The walk's date order is irreflexive. -/
theorem dateLtB_irrefl (a : DateV) : dateLtB a a = false := by
  simp [dateLtB]

/-- The walk's date order is asymmetric. -/
theorem dateLtB_asymm (a b : DateV) (h : dateLtB a b = true) :
    dateLtB b a = false := by
  simp only [dateLtB, decide_eq_true_eq] at h
  simp only [dateLtB, decide_eq_false_iff_not]
  omega

/-- Walk correctness on a monotone doubly-linked chain: starting anywhere
within reach of the target index, the directed walk returns the record of
the target page. -/
theorem walk_finds
    (site : String → Option String) (date : String) (tv : DateV) (n : Nat)
    (urls htmls d : Nat → String) (v : Nat → DateV)
    (hsite : ∀ i, i < n → site (urls i) = some (htmls i))
    (hnav : ∀ i, i < n → parse_devotional_nav (htmls i) =
      .ok (some (d i), (if 0 < i then some (urls (i - 1)) else none),
        (if i + 1 < n then some (urls (i + 1)) else none)))
    (hstrp : ∀ i, i < n → strptime_Ymd (d i) = some (v i))
    (hmono : ∀ i j, i < j → j < n → dateLtB (v i) (v j) = true)
    (htarget : strptime_Ymd date = some tv)
    (t : Nat) (ht : t < n) (hvt : v t = tv) :
    ∀ fuel i, i < n → (i - t) + (t - i) < fuel →
      (walk site date tv fuel (urls i)).1 =
        WalkOut.ret (scrape_devotional_page (urls t) (htmls t)) := by
  have hinj : ∀ i, i < n → v i = tv → i = t := by
    intro i hi hv
    rcases Nat.lt_trichotomy i t with h | h | h
    · have hm := hmono i t h ht
      rw [hvt, hv] at hm
      exact absurd hm (by simp [dateLtB_irrefl])
    · exact h
    · have hm := hmono t i h hi
      rw [hvt, hv] at hm
      exact absurd hm (by simp [dateLtB_irrefl])
  intro fuel
  induction fuel with
  | zero => intro i hi hd; omega
  | succ m ih =>
    intro i hi hd
    rw [walk, hsite i hi]
    dsimp only
    rw [hnav i hi]
    dsimp only
    by_cases heq : d i = date
    · have hvit : v i = tv := by
        have hs := hstrp i hi
        rw [heq, htarget] at hs
        exact (Option.some.inj hs).symm
      have hit : i = t := hinj i hi hvit
      subst hit
      rw [if_pos ⟨by simp [strptime_ne_empty _ _ (hstrp i hi)], by rw [heq]⟩]
    · rw [if_neg (fun hcon => heq (Option.some.inj hcon.2))]
      rw [if_pos (by simp [strptime_ne_empty _ _ (hstrp i hi)])]
      simp only [Option.some_bind]
      rw [hstrp i hi]
      dsimp only
      by_cases hit : i = t
      · subst hit
        rw [if_pos (by rw [hvt])]
      · have hvne : ¬ v i = tv := fun h => hit (hinj i hi h)
        rw [if_neg hvne]
        rcases Nat.lt_trichotomy i t with hlt | heqq | hgt
        · have hlt2 := hmono i t hlt ht
          rw [hvt] at hlt2
          have hfalse := dateLtB_asymm _ _ hlt2
          rw [hfalse, hlt2]
          have hnx : i + 1 < n := by omega
          rw [if_pos hnx]
          by_cases hz : 0 < i
          · rw [if_pos hz]
            dsimp only
            exact ih (i + 1) (by omega) (by omega)
          · rw [if_neg hz]
            dsimp only
            exact ih (i + 1) (by omega) (by omega)
        · exact absurd heqq hit
        · have hgt2 := hmono t i hgt hi
          rw [hvt] at hgt2
          rw [hgt2]
          rw [if_pos (show 0 < i by omega)]
          dsimp only
          exact ih (i - 1) (by omega) (by omega)

/-- C1 (amended): on a site whose devotional pages form a previous/next
chain with strictly increasing, `strptime`-parseable navigation dates, one
of which carries the target's date value, with the starting page at
distance at most 399 from the target page and the full extractor on the
target page producing a record whose `date` equals the input,
`scrape_by_date` returns exactly that record.  (As stated the claim fails:
mere chain reachability does not make the directed walk explore that
direction, and the record's `date` comes from `devotionalDate` while the
chain matches on `otherDate`; see the counterexample.) -/
theorem c1_by_date_chain
    (site : String → Option String) (date : String) (tv : DateV) (n : Nat)
    (urls htmls d : Nat → String) (v : Nat → DateV)
    (hsite : ∀ i, i < n → site (urls i) = some (htmls i))
    (hnav : ∀ i, i < n → parse_devotional_nav (htmls i) =
      .ok (some (d i), (if 0 < i then some (urls (i - 1)) else none),
        (if i + 1 < n then some (urls (i + 1)) else none)))
    (hstrp : ∀ i, i < n → strptime_Ymd (d i) = some (v i))
    (hmono : ∀ i j, i < j → j < n → dateLtB (v i) (v j) = true)
    (htarget : strptime_Ymd date = some tv)
    (t : Nat) (ht : t < n) (hvt : v t = tv)
    (s : Nat) (hs : s < n)
    (hstart : startResolveE site date = .ok (urls s))
    (hdist : (s - t) + (t - s) ≤ 399)
    (r : Devotional)
    (hrec : scrape_devotional_page (urls t) (htmls t) = .ok r)
    (hdate : r.date = date) :
    scrape_by_date site date = .ok r ∧ r.date = date := by
  have hwalk := walk_finds site date tv n urls htmls d v hsite hnav hstrp
    hmono htarget t ht hvt 400 s hs (by omega)
  unfold scrape_by_date
  rw [core_of_start site date tv (urls s) htarget hstart]
  dsimp only
  rw [hwalk]
  exact ⟨hrec, hdate⟩

/-- Witness for C1 on a concrete one-page chain whose nav date and record
date agree: `scrape_by_date` returns the record with the requested date. -/
theorem c1_by_date_chain_witness :
    scrape_by_date c1wSite "2024-01-05" = .ok c1wRecord ∧
    c1wRecord.date = "2024-01-05" :=
  c1_by_date_chain c1wSite "2024-01-05" ⟨2024, 1, 5⟩ 1
    (fun _ => c1wStart) (fun _ => c1wPage) (fun _ => "2024-01-05")
    (fun _ => ⟨2024, 1, 5⟩)
    (fun i hi => by
      have h0 : i = 0 := by omega
      subst h0
      rfl)
    (fun i hi => by
      have h0 : i = 0 := by omega
      subst h0
      rfl)
    (fun i hi => by
      have h0 : i = 0 := by omega
      subst h0
      rfl)
    (fun i j hij hj => by omega)
    rfl 0 (by omega) rfl 0 (by omega) rfl (by omega) c1wRecord rfl rfl

end Devotio
